import Mathlib

/-!
Verification of the match-ingestion, identity-resolution and
statistics-aggregation engine of the DawnOfWarDisBot repository
(src/Bot.py), as a shallow embedding: Python dicts become association
lists (or lookup functions), sets become lists with set-semantics
insertion, the global mutable stores are passed explicitly as a state
record, network fetches become oracle parameters, and snapshot file
writes are recorded as save events in the state.
-/

namespace DowBot

/-- Events recording which persistent snapshot a code path writes:
matchSave for save_match_data_to_file, aliasSave for save_aliases_to_file. -/
inductive SaveEvent where
  | matchSave
  | aliasSave
deriving DecidableEq

/-- Lookup in an association list modelling a Python dict. -/
def lookupA {K V : Type} [DecidableEq K] : List (K × V) → K → Option V
  | [], _ => none
  | (k, v) :: rest, key => if k = key then some v else lookupA rest key

/-- Python dict assignment d[k] = v: overwrite the entry in place when the
key is present, append otherwise (insertion order preserved, as for dicts). -/
def insertA {K V : Type} [DecidableEq K] : List (K × V) → K → V → List (K × V)
  | [], k, v => [(k, v)]
  | (k0, v0) :: rest, k, v =>
      if k0 = k then (k, v) :: rest else (k0, v0) :: insertA rest k v

/-- In-place mutation of an existing dict entry; absent keys are untouched. -/
def updateA {K V : Type} [DecidableEq K] : List (K × V) → K → (V → V) → List (K × V)
  | [], _, _ => []
  | (k0, v0) :: rest, k, f =>
      if k0 = k then (k0, f v0) :: rest else (k0, v0) :: updateA rest k f

/-- Python set.add on a duplicate-free list model of a set. -/
def setAdd {K : Type} [DecidableEq K] (l : List K) (x : K) : List K :=
  if x ∈ l then l else l ++ [x]

/-- Codepoint-lexicographic comparison of character lists, the order Python
uses to compare strings. -/
def pyLtChars : List Char → List Char → Bool
  | [], [] => false
  | [], _ :: _ => true
  | _ :: _, [] => false
  | a :: as, b :: bs => if a < b then true else if b < a then false else pyLtChars as bs

/-- Python string comparison a < b. -/
def pyStrLt (a b : String) : Bool := pyLtChars a.data b.data

/-- Python s.startswith(pre). -/
def pyStartsWith (s pre : String) : Bool := pre.data.isPrefixOf s.data

/-- Fuel-indexed worker for pyReplaceWithEmpty; the fuel is the length of the
scanned list, which bounds the number of steps. -/
def removeAllAux : Nat → List Char → List Char → List Char
  | 0, _, l => l
  | _ + 1, _, [] => []
  | fuel + 1, pat, c :: cs =>
      if pat ≠ [] ∧ pat.isPrefixOf (c :: cs) then
        removeAllAux fuel pat ((c :: cs).drop pat.length)
      else c :: removeAllAux fuel pat cs

/-- Python s.replace(pat, ""): delete every non-overlapping occurrence of pat
scanning left to right. -/
def pyReplaceWithEmpty (s pat : String) : String :=
  String.mk (removeAllAux s.data.length pat.data s.data)

/-- The character predicate behind Python str.isdigit: true on the ASCII
digits and on the further Unicode digit characters Python accepts; the
non-ASCII ranges listed here (superscript digits, Arabic-Indic digits,
fullwidth digits) are representatives of those extra classes. -/
def pythonIsDigitChar (c : Char) : Bool :=
  c.isDigit || c = '¹' || c = '²' || c = '³' ||
  ('٠' ≤ c && c ≤ '٩') || ('０' ≤ c && c ≤ '９')

/-- Python str.isdigit: at least one character and every character a digit
character. -/
def pyStrIsDigit (s : String) : Bool :=
  !s.data.isEmpty && s.data.all pythonIsDigitChar

/-- Bot.py validate_steamid: steam_id.isdigit() and len(steam_id) == 17.
The lru_cache decorator is pure memoisation with no observable effect. -/
def validate_steamid (s : String) : Bool :=
  pyStrIsDigit s && s.data.length == 17

/-- Bot.py FACTIONS values in key order 1..9. -/
def factionNames : List String :=
  ["Chaos", "Dark Eldar", "Eldar", "Imperial Guard", "Necrons",
   "Orks", "Sisters of Battle", "Space Marines", "Tau Empire"]

/-- Bot.py FACTIONS as an association list from leaderboard id. -/
def factions : List (Int × String) :=
  [(1, "Chaos"), (2, "Dark Eldar"), (3, "Eldar"), (4, "Imperial Guard"),
   (5, "Necrons"), (6, "Orks"), (7, "Sisters of Battle"),
   (8, "Space Marines"), (9, "Tau Empire")]

/-- Bot.py RACE_MAP.get(race_id, f-string "Race race_id"). -/
def raceMap (i : Int) : String :=
  if i = 0 then "Chaos" else if i = 1 then "Dark Eldar" else if i = 2 then "Eldar"
  else if i = 3 then "Imperial Guard" else if i = 4 then "Necrons"
  else if i = 5 then "Orks" else if i = 6 then "Sisters of Battle"
  else if i = 7 then "Space Marines" else if i = 8 then "Tau Empire"
  else "Race " ++ toString i

/-- Bot.py dataclass MatchData; the two timestamps are numeric and are
modelled as integers. -/
structure MatchData where
  match_id : String
  map_name : String
  start_time : Int
  completion_time : Int
  player1_steamid : String
  player1_alias : String
  player1_race : String
  player1_old_elo : Int
  player1_new_elo : Int
  player2_steamid : String
  player2_alias : String
  player2_race : String
  player2_old_elo : Int
  player2_new_elo : Int
  winner_steamid : String
  winner_race : String
deriving DecidableEq

/-- The process-wide mutable stores of Bot.py (stored_matches,
processed_match_ids, player_aliases) plus a log of snapshot saves. -/
structure BotState where
  stored_matches : List (String × MatchData)
  processed_match_ids : List String
  player_aliases : List (String × String)
  saves : List SaveEvent
deriving DecidableEq

/-- The stores at process start before any load. -/
def initState : BotState := ⟨[], [], [], []⟩

/-- Bot.py store_player_alias: rejects invalid ids, empty aliases and the
placeholder; writes only when the stored alias differs. -/
def store_player_alias (st : BotState) (steam_id «alias» : String)
    (save_immediately : Bool) : Bool × BotState :=
  if !validate_steamid steam_id || «alias» = "" || «alias» = "Unknown Player" then
    (false, st)
  else if lookupA st.player_aliases steam_id ≠ some «alias» then
    let st1 := { st with player_aliases := insertA st.player_aliases steam_id «alias» }
    let st2 := if save_immediately then
        { st1 with saves := st1.saves ++ [SaveEvent.aliasSave] }
      else st1
    (true, st2)
  else (false, st)

/-- One entry of matchhistorymember; these fields are read with [] in
Bot.py, so they are plain fields of the record. -/
structure RawMember where
  profile_id : Int
  race_id : Int
  oldrating : Int
  newrating : Int
deriving DecidableEq

/-- One entry of matchhistoryreportresults. -/
structure RawResult where
  profile_id : Int
  resulttype : Int
deriving DecidableEq

/-- One raw upstream match record; fields read through dict.get are Option
with the Python default applied at the use site, and the two list fields
read with dict.get(key, []) are plain lists (absent means empty). -/
structure RawMatch where
  id : Int
  matchtype_id : Option Int
  mapname : Option String
  startgametime : Option Int
  completiontime : Option Int
  matchhistorymember : List RawMember
  matchhistoryreportresults : List RawResult
deriving DecidableEq

/-- One record of the upstream profiles list. -/
structure RawProfile where
  profile_id : Int
  name : Option String
  «alias» : Option String
deriving DecidableEq

/-- Bot.py results_map dict comprehension; a later duplicate profile_id
overwrites an earlier one, as in a dict comprehension. -/
def resultsMap (rs : List RawResult) : List (Int × Int) :=
  rs.foldl (fun m r => insertA m r.profile_id r.resulttype) []

/-- One element of players_data in store_match_from_history. -/
structure PlayerRec where
  steam_id : String
  «alias» : String
  race_name : String
  old_elo : Int
  new_elo : Int
  is_winner : Bool
deriving DecidableEq

/-- The body of the per-member loop of store_match_from_history: the first
profile whose id matches and whose name starts with /steam/ supplies the
steam id and alias; a missing or invalid steam id fails the whole match. -/
def resolveMember (profiles : List RawProfile) (rmap : List (Int × Int))
    (m : RawMember) : Option PlayerRec :=
  match profiles.find? (fun p =>
      p.profile_id == m.profile_id && pyStartsWith (p.name.getD "") "/steam/") with
  | none => none
  | some p =>
      let steam_id := pyReplaceWithEmpty (p.name.getD "") "/steam/"
      if steam_id = "" || !validate_steamid steam_id then none
      else
        some { steam_id := steam_id
               «alias» := p.«alias».getD "Unknown Player"
               race_name := raceMap m.race_id
               old_elo := m.oldrating
               new_elo := m.newrating
               is_winner := (lookupA rmap m.profile_id).getD (-1) == 1 }

/-- The member loop of store_match_from_history, failing as a whole (return
False) when any member fails to resolve, in loop order. -/
def collectPlayers (profiles : List RawProfile) (rmap : List (Int × Int)) :
    List RawMember → Option (List PlayerRec)
  | [] => some []
  | m :: ms =>
      match resolveMember profiles rmap m with
      | none => none
      | some p =>
          match collectPlayers profiles rmap ms with
          | none => none
          | some ps => some (p :: ps)

/-- Bot.py store_match_from_history: the rejection cascade (already
processed, wrong match type, wrong member count, unresolvable member, no
member marked a winner), then alias storage, construction of the MatchData
and insertion into both stores, with the two snapshot saves when not in
batch mode. The final catch-all except clause never fires in this model
because every dict access is total on the record types. -/
def store_match_from_history (mtch : RawMatch) (profiles : List RawProfile)
    (batch_mode : Bool) (st : BotState) : Bool × BotState :=
  let match_id := toString mtch.id
  if match_id ∈ st.processed_match_ids then (false, st)
  else if mtch.matchtype_id ≠ some 1 then (false, st)
  else
    let members := mtch.matchhistorymember
    if members.length ≠ 2 then (false, st)
    else
      let rmap := resultsMap mtch.matchhistoryreportresults
      match collectPlayers profiles rmap members with
      | none => (false, st)
      | some players =>
          match players.find? (fun p => p.is_winner) with
          | none => (false, st)
          | some winner =>
              match players with
              | [p1, p2] =>
                  let st1 := players.foldl
                    (fun s p => (store_player_alias s p.steam_id p.«alias» false).2) st
                  let md : MatchData :=
                    { match_id := match_id
                      map_name := mtch.mapname.getD "Unknown Map"
                      start_time := mtch.startgametime.getD 0
                      completion_time := mtch.completiontime.getD 0
                      player1_steamid := p1.steam_id
                      player1_alias := p1.«alias»
                      player1_race := p1.race_name
                      player1_old_elo := p1.old_elo
                      player1_new_elo := p1.new_elo
                      player2_steamid := p2.steam_id
                      player2_alias := p2.«alias»
                      player2_race := p2.race_name
                      player2_old_elo := p2.old_elo
                      player2_new_elo := p2.new_elo
                      winner_steamid := winner.steam_id
                      winner_race := winner.race_name }
                  let st2 := { st1 with
                    stored_matches := insertA st1.stored_matches match_id md
                    processed_match_ids := setAdd st1.processed_match_ids match_id }
                  let st3 := if !batch_mode then
                      { st2 with
                        saves := st2.saves ++ [SaveEvent.matchSave, SaveEvent.aliasSave] }
                    else st2
                  (true, st3)
              -- unreachable: collectPlayers preserves the checked length 2
              | _ => (false, st)

/-- Claim C1: for every store state and every raw match whose upstream id is
already in the processed-id set, store_match_from_history returns false and
leaves the stored-match count, the match collection and the processed-id set
exactly unchanged. -/
theorem c1_store_noop_on_processed_id (mtch : RawMatch)
    (profiles : List RawProfile) (batch_mode : Bool) (st : BotState)
    (h : toString mtch.id ∈ st.processed_match_ids) :
    (store_match_from_history mtch profiles batch_mode st).1 = false ∧
    (store_match_from_history mtch profiles batch_mode st).2.stored_matches.length
      = st.stored_matches.length ∧
    (store_match_from_history mtch profiles batch_mode st).2.stored_matches
      = st.stored_matches ∧
    (store_match_from_history mtch profiles batch_mode st).2.processed_match_ids
      = st.processed_match_ids := by
  simp [store_match_from_history, h]

/-- A concrete raw match used by the C1 witness. -/
def c1Match : RawMatch :=
  { id := 7, matchtype_id := some 1, mapname := none, startgametime := none
    completiontime := none, matchhistorymember := [], matchhistoryreportresults := [] }

/-- A concrete state that has already processed match id 7. -/
def c1State : BotState :=
  { stored_matches := [], processed_match_ids := ["7"], player_aliases := []
    saves := [] }

/-- Witness for C1 at a concrete state containing the id. -/
theorem c1_store_noop_on_processed_id_witness :
    toString c1Match.id ∈ c1State.processed_match_ids ∧
    ((store_match_from_history c1Match [] true c1State).1 = false ∧
     (store_match_from_history c1Match [] true c1State).2.stored_matches.length
       = c1State.stored_matches.length ∧
     (store_match_from_history c1Match [] true c1State).2.stored_matches
       = c1State.stored_matches ∧
     (store_match_from_history c1Match [] true c1State).2.processed_match_ids
       = c1State.processed_match_ids) :=
  ⟨by decide, c1_store_noop_on_processed_id c1Match [] true c1State (by decide)⟩

/-- Seventeen copies of the Unicode superscript-two character, a string that
Python str.isdigit accepts although no character is an ASCII digit. -/
def superscriptId : String := String.mk (List.replicate 17 '²')

/-- Claim C3 counterexample: validate_steamid accepts a 17-character string
none of whose characters is an ASCII digit, refuting the claim that any
string containing a character outside 0-9 yields false. -/
theorem c3_counterexample_unicode_digits :
    validate_steamid superscriptId = true ∧
    superscriptId.data.all Char.isDigit = false := by decide

/-- Claim C3 amended: validate_steamid s is true iff s has exactly 17
characters and every character is a digit for the Unicode-aware Python
str.isdigit predicate (all ASCII digits qualify, but so do further Unicode
digit characters such as the superscripts); in particular any string of a
different length yields false. -/
theorem c3_validate_steamid_amended (s : String) :
    validate_steamid s = true ↔
      s.data.length = 17 ∧ s.data.all pythonIsDigitChar = true := by
  simp only [validate_steamid, pyStrIsDigit, Bool.and_eq_true, beq_iff_eq,
    Bool.not_eq_eq_eq_not, Bool.not_true, List.isEmpty_eq_false_iff_exists_mem]
  constructor
  · rintro ⟨⟨-, hall⟩, hlen⟩
    exact ⟨hlen, hall⟩
  · rintro ⟨hlen, hall⟩
    refine ⟨⟨?_, hall⟩, hlen⟩
    cases hd : s.data with
    | nil => rw [hd] at hlen; simp at hlen
    | cons c cs => exact ⟨c, List.mem_cons_self c cs⟩

/-- Map over the values of an association list, keeping keys, modelling an
in-place mutation of every dict value by a loop over dict.values(). -/
def mapValuesA {K V : Type} (g : V → V) : List (K × V) → List (K × V)
  | [] => []
  | (k, v) :: rest => (k, g v) :: mapValuesA g rest

theorem lookupA_insertA {K V : Type} [DecidableEq K] (v : V) :
    ∀ (l : List (K × V)) (k r : K),
      lookupA (insertA l k v) r = if k = r then some v else lookupA l r := by
  intro l
  induction l with
  | nil => intro k r; rfl
  | cons kv rest ih =>
    intro k r
    obtain ⟨k0, v0⟩ := kv
    by_cases h0 : k0 = k
    · subst h0
      by_cases hr : k0 = r <;> simp [insertA, lookupA, hr]
    · by_cases hr : k0 = r
      · have hkr : ¬ k = r := fun h => h0 (hr.trans h.symm)
        have hrk : ¬ r = k := fun h => h0 (hr.trans h)
        simp [insertA, lookupA, h0, hr, hkr, hrk]
      · simp [insertA, lookupA, h0, hr, ih]

theorem lookupA_updateA {K V : Type} [DecidableEq K] (f : V → V) :
    ∀ (l : List (K × V)) (k r : K),
      lookupA (updateA l k f) r =
        if k = r then (lookupA l k).map f else lookupA l r := by
  intro l
  induction l with
  | nil => intro k r; by_cases h : k = r <;> simp [updateA, lookupA, h]
  | cons kv rest ih =>
    intro k r
    obtain ⟨k0, v0⟩ := kv
    by_cases h0 : k0 = k
    · subst h0
      by_cases hr : k0 = r <;> simp [updateA, lookupA, hr]
    · by_cases hr : k0 = r
      · have hkr : ¬ k = r := fun h => h0 (hr.trans h.symm)
        have hrk : ¬ r = k := fun h => h0 (hr.trans h)
        simp [updateA, lookupA, h0, hr, hkr, hrk]
      · simp [updateA, lookupA, h0, hr, ih]

theorem lookupA_mapValuesA {K V : Type} [DecidableEq K] (g : V → V) :
    ∀ (l : List (K × V)) (r : K),
      lookupA (mapValuesA g l) r = (lookupA l r).map g := by
  intro l
  induction l with
  | nil => intro r; rfl
  | cons kv rest ih =>
    intro r
    obtain ⟨k0, v0⟩ := kv
    by_cases h : k0 = r <;> simp [mapValuesA, lookupA, h, ih]

/-- A predicate preserved by every step of a left fold holds of the result. -/
theorem foldl_preserve {α β : Type} (P : β → Prop) (f : β → α → β)
    (l : List α) (b : β) (hb : P b)
    (hstep : ∀ b a, a ∈ l → P b → P (f b a)) : P (l.foldl f b) := by
  induction l generalizing b with
  | nil => exact hb
  | cons a l ih =>
    exact ih (f b a) (hstep b a (by simp) hb)
      (fun b x hx hP => hstep b x (by simp [hx]) hP)

theorem resolveMember_is_winner {profiles : List RawProfile}
    {rmap : List (Int × Int)} {m : RawMember} {p : PlayerRec}
    (h : resolveMember profiles rmap m = some p) :
    p.is_winner = ((lookupA rmap m.profile_id).getD (-1) == 1) := by
  simp only [resolveMember] at h
  split at h
  · simp at h
  · split at h
    · simp at h
    · rw [Option.some_inj] at h
      subst h
      rfl

theorem collectPlayers_mem (profiles : List RawProfile) (rmap : List (Int × Int)) :
    ∀ (ms : List RawMember) (players : List PlayerRec),
      collectPlayers profiles rmap ms = some players →
      ∀ p ∈ players, ∃ m ∈ ms, resolveMember profiles rmap m = some p := by
  intro ms
  induction ms with
  | nil =>
    intro players h p hp
    simp only [collectPlayers, Option.some_inj] at h
    subst h
    simp at hp
  | cons m ms ih =>
    intro players h p hp
    simp only [collectPlayers] at h
    cases hres : resolveMember profiles rmap m with
    | none => rw [hres] at h; simp at h
    | some q =>
      rw [hres] at h
      cases hrec : collectPlayers profiles rmap ms with
      | none => rw [hrec] at h; simp at h
      | some ps =>
        rw [hrec, Option.some_inj] at h
        subst h
        rcases List.mem_cons.mp hp with hq | hps
        · exact ⟨m, List.mem_cons_self m ms, by rw [hres, hq]⟩
        · obtain ⟨m1, hm1, hr1⟩ := ih ps hrec p hps
          exact ⟨m1, List.mem_cons_of_mem m hm1, hr1⟩

/-- Claim C2 amended: a raw match in which no participant result code
indicates a win is rejected by store_match_from_history (returns false) and
the whole state, in particular the stored-match count, is unchanged. A match
in which BOTH participants indicate a win is not rejected for this reason:
the first participant is recorded as winner (see the counterexample). -/
theorem c2_store_rejects_zero_winner (mtch : RawMatch) (profiles : List RawProfile)
    (batch_mode : Bool) (st : BotState)
    (h : ∀ m ∈ mtch.matchhistorymember,
        (lookupA (resultsMap mtch.matchhistoryreportresults) m.profile_id).getD (-1) ≠ 1) :
    store_match_from_history mtch profiles batch_mode st = (false, st) := by
  have hw : ∀ players, collectPlayers profiles (resultsMap mtch.matchhistoryreportresults)
      mtch.matchhistorymember = some players →
      players.find? (fun p => p.is_winner) = none := by
    intro players hcp
    rw [List.find?_eq_none]
    intro p hp
    obtain ⟨m, hm, hres⟩ := collectPlayers_mem _ _ _ _ hcp p hp
    have hwin := resolveMember_is_winner hres
    intro hcontra
    rw [hwin] at hcontra
    exact h m hm (by simpa using hcontra)
  simp only [store_match_from_history]
  split
  · rfl
  · split
    · rfl
    · split
      · rfl
      · split
        · rfl
        · rename_i players hcp
          rw [hw players hcp]

/-- Two profiles used by the C2 witness and counterexample. -/
def c2Profiles : List RawProfile :=
  [ { profile_id := 11, name := some "/steam/76561198000000001", «alias» := some "Alpha" },
    { profile_id := 12, name := some "/steam/76561198000000002", «alias» := some "Beta" } ]

/-- A ranked 1v1 raw match in which both result codes indicate a win. -/
def c2BothWinMatch : RawMatch :=
  { id := 42, matchtype_id := some 1, mapname := some "Battle Marshes"
    startgametime := some 100, completiontime := some 200
    matchhistorymember :=
      [ { profile_id := 11, race_id := 0, oldrating := 1200, newrating := 1210 },
        { profile_id := 12, race_id := 3, oldrating := 1100, newrating := 1090 } ]
    matchhistoryreportresults := [ ⟨11, 1⟩, ⟨12, 1⟩ ] }

/-- The same raw match with both result codes 0 (no winner). -/
def c2NoWinMatch : RawMatch :=
  { c2BothWinMatch with matchhistoryreportresults := [ ⟨11, 0⟩, ⟨12, 0⟩ ] }

/-- Claim C2 counterexample: a raw match in which both participants result
codes indicate a win is NOT rejected: store_match_from_history returns true,
the stored-match count grows, and the first participant is recorded as the
winner, refuting the claim that a two-winner match is rejected with the
count unchanged. -/
theorem c2_counterexample_two_winners :
    (store_match_from_history c2BothWinMatch c2Profiles true initState).1 = true ∧
    (store_match_from_history c2BothWinMatch c2Profiles true
        initState).2.stored_matches.length = 1 ∧
    ((store_match_from_history c2BothWinMatch c2Profiles true
        initState).2.stored_matches.map (fun e => e.2.winner_steamid))
      = ["76561198000000001"] := by decide

/-- Witness for the amended C2 at the zero-winner raw match. -/
theorem c2_store_rejects_zero_winner_witness :
    (∀ m ∈ c2NoWinMatch.matchhistorymember,
      (lookupA (resultsMap c2NoWinMatch.matchhistoryreportresults) m.profile_id).getD (-1) ≠ 1) ∧
    store_match_from_history c2NoWinMatch c2Profiles false initState = (false, initState) :=
  ⟨by decide, c2_store_rejects_zero_winner c2NoWinMatch c2Profiles false initState (by decide)⟩

/-- The per-player range test built by the loop body of
filter_matches_by_elo_range: each present bound constrains the pre-match
rating of the player inclusively. -/
def playerInRange (min_elo max_elo : Option Int) (elo : Int) : Bool :=
  (match min_elo with
   | some v => decide (elo ≥ v)
   | none => true) &&
  (match max_elo with
   | some v => decide (elo ≤ v)
   | none => true)

/-- Bot.py filter_matches_by_elo_range over the list of stored matches: with
no bounds the full collection is returned directly; otherwise a match
qualifies only if both players pre-match ratings are in range. -/
def filter_matches_by_elo_range (min_elo max_elo : Option Int)
    (stored : List MatchData) : List MatchData :=
  match min_elo, max_elo with
  | none, none => stored
  | _, _ => stored.filter (fun m =>
      playerInRange min_elo max_elo m.player1_old_elo &&
      playerInRange min_elo max_elo m.player2_old_elo)

theorem mem_filter_matches (min_elo max_elo : Option Int) (stored : List MatchData)
    (m : MatchData) :
    m ∈ filter_matches_by_elo_range min_elo max_elo stored ↔
      m ∈ stored ∧ (playerInRange min_elo max_elo m.player1_old_elo &&
        playerInRange min_elo max_elo m.player2_old_elo) = true := by
  match min_elo, max_elo with
  | none, none => simp [filter_matches_by_elo_range, playerInRange]
  | some a, none => simp [filter_matches_by_elo_range, List.mem_filter]
  | none, some b => simp [filter_matches_by_elo_range, List.mem_filter]
  | some a, some b => simp [filter_matches_by_elo_range, List.mem_filter]

/-- Claim C9: filter_matches_by_elo_range is monotonic: whenever every rating
accepted by the first range is accepted by the second (range containment,
with an absent bound unbounded on that side), every match returned for the
first range is also returned for the second; and with no filter arguments
the full collection is returned. -/
theorem c9_filter_monotonic (stored : List MatchData) (min1 max1 min2 max2 : Option Int)
    (hsub : ∀ x : Int, playerInRange min1 max1 x = true → playerInRange min2 max2 x = true) :
    (∀ m ∈ filter_matches_by_elo_range min1 max1 stored,
       m ∈ filter_matches_by_elo_range min2 max2 stored) ∧
    filter_matches_by_elo_range none none stored = stored := by
  refine ⟨?_, rfl⟩
  intro m hm
  rw [mem_filter_matches] at hm ⊢
  obtain ⟨hmem, hpred⟩ := hm
  rw [Bool.and_eq_true] at hpred
  exact ⟨hmem, by rw [Bool.and_eq_true]; exact ⟨hsub _ hpred.1, hsub _ hpred.2⟩⟩

/-- A stored match used by the C9 witness. -/
def c9Match : MatchData :=
  { match_id := "1", map_name := "Battle Marshes", start_time := 0
    completion_time := 10, player1_steamid := "76561198000000001"
    player1_alias := "Alpha", player1_race := "Chaos", player1_old_elo := 150
    player1_new_elo := 160, player2_steamid := "76561198000000002"
    player2_alias := "Beta", player2_race := "Eldar", player2_old_elo := 180
    player2_new_elo := 170, winner_steamid := "76561198000000001"
    winner_race := "Chaos" }

/-- Witness for C9: the range 100..200 is contained in the range 50..infinity
and the monotonicity conclusion holds at a concrete store. -/
theorem c9_filter_monotonic_witness :
    (∀ x : Int, playerInRange (some 100) (some 200) x = true →
        playerInRange (some 50) none x = true) ∧
    ((∀ m ∈ filter_matches_by_elo_range (some 100) (some 200) [c9Match],
        m ∈ filter_matches_by_elo_range (some 50) none [c9Match]) ∧
     filter_matches_by_elo_range none none [c9Match] = [c9Match]) := by
  have hs : ∀ x : Int, playerInRange (some 100) (some 200) x = true →
      playerInRange (some 50) none x = true := by
    intro x hx
    simp [playerInRange] at hx ⊢
    omega
  exact ⟨hs, c9_filter_monotonic [c9Match] (some 100) (some 200) (some 50) none hs⟩

/-- One side of the f-string elo_range annotation; Python or treats both
None and 0 as falsy, so a 0 bound also prints as Any. -/
def eloBoundStr (b : Option Int) : String :=
  match b with
  | some v => if v = 0 then "Any" else toString v
  | none => "Any"

/-- The elo_range annotation attached to every aggregate view. -/
def eloRangeStr (min_elo max_elo : Option Int) : String :=
  eloBoundStr min_elo ++ "-" ++ eloBoundStr max_elo

/-- One value of the race_stats dict in get_map_race_statistics. -/
structure MapRaceEntry where
  wins : Nat
  losses : Nat
  total_games : Nat
  winrate : ℚ
deriving DecidableEq

/-- The result dict of get_map_race_statistics. -/
structure MapStats where
  map_name : String
  total_matches : Nat
  race_stats : List (String × MapRaceEntry)
  elo_range : String
deriving DecidableEq

/-- The per-match loop body of get_map_race_statistics. -/
def mapRaceStep (map_name : String) (ms : MapStats) (m : MatchData) : MapStats :=
  if m.map_name = map_name then
    let ms1 := { ms with total_matches := ms.total_matches + 1 }
    let winner_race := m.winner_race
    let loser_race := if m.player1_race = winner_race then m.player2_race else m.player1_race
    let ms2 := if (lookupA ms1.race_stats winner_race).isSome then
        let rsW := updateA ms1.race_stats winner_race
          (fun e => { e with wins := e.wins + 1, total_games := e.total_games + 1 })
        { ms1 with race_stats := rsW }
      else ms1
    if (lookupA ms2.race_stats loser_race).isSome then
      let rsL := updateA ms2.race_stats loser_race
        (fun e => { e with losses := e.losses + 1, total_games := e.total_games + 1 })
      { ms2 with race_stats := rsL }
    else ms2
  else ms

/-- The initial result record of get_map_race_statistics: a zero entry for
each of the 9 factions. -/
def mapStatsInit (map_name : String) (min_elo max_elo : Option Int) : MapStats :=
  { map_name := map_name, total_matches := 0
    race_stats := factionNames.foldl (fun acc race =>
        insertA acc race { wins := 0, losses := 0, total_games := 0, winrate := 0 }) []
    elo_range := eloRangeStr min_elo max_elo }

/-- The final per-entry win-rate computation of get_map_race_statistics. -/
def mapRaceFinish (e : MapRaceEntry) : MapRaceEntry :=
  if e.total_games > 0 then
    { e with winrate := ((e.wins : ℚ) / (e.total_games : ℚ)) * 100 }
  else e

/-- Bot.py get_map_race_statistics: initialise a zero table over the 9
factions, tally the elo-filtered matches on the target map, then compute
win rates for races with games. -/
def get_map_race_statistics (map_name : String) (min_elo max_elo : Option Int)
    (stored : List MatchData) : MapStats :=
  let ms := (filter_matches_by_elo_range min_elo max_elo stored).foldl
      (mapRaceStep map_name) (mapStatsInit map_name min_elo max_elo)
  { ms with race_stats := mapValuesA mapRaceFinish ms.race_stats }

/-- One value of the matchups dict in get_race_specific_matchups. -/
structure RaceMatchupEntry where
  opponent : String
  wins : Nat
  losses : Nat
  total : Nat
  winrate : ℚ
deriving DecidableEq

/-- The result dict of get_race_specific_matchups. -/
structure RaceStats where
  race : String
  total_matches : Nat
  total_wins : Nat
  total_losses : Nat
  overall_winrate : ℚ
  matchups : List (String × RaceMatchupEntry)
  elo_range : String
deriving DecidableEq

/-- The increment of the per-opponent total counter. -/
def bumpTotal (e : RaceMatchupEntry) : RaceMatchupEntry := { e with total := e.total + 1 }

/-- The increment of the per-opponent wins counter. -/
def bumpWins (e : RaceMatchupEntry) : RaceMatchupEntry := { e with wins := e.wins + 1 }

/-- The increment of the per-opponent losses counter. -/
def bumpLosses (e : RaceMatchupEntry) : RaceMatchupEntry := { e with losses := e.losses + 1 }

/-- The per-match loop body of get_race_specific_matchups. -/
def raceMatchupStep (target_race : String) (rs : RaceStats) (m : MatchData) : RaceStats :=
  if m.player1_race = target_race ∨ m.player2_race = target_race then
    let opponent_race :=
      if m.player1_race = target_race then m.player2_race else m.player1_race
    let target_won := m.winner_race = target_race
    let rs1 := { rs with total_matches := rs.total_matches + 1 }
    if (lookupA rs1.matchups opponent_race).isSome then
      let rs2 := { rs1 with matchups := updateA rs1.matchups opponent_race bumpTotal }
      if target_won then
        { rs2 with total_wins := rs2.total_wins + 1,
                   matchups := updateA rs2.matchups opponent_race bumpWins }
      else
        { rs2 with total_losses := rs2.total_losses + 1,
                   matchups := updateA rs2.matchups opponent_race bumpLosses }
    else rs1
  else rs

/-- The initial matchups dict of get_race_specific_matchups: a zero entry
for every faction OTHER than the target, because the initialisation loop
skips race == target_race. -/
def raceMatchupsInit (target_race : String) : List (String × RaceMatchupEntry) :=
  factionNames.foldl (fun acc race =>
    if race ≠ target_race then
      insertA acc race
        { opponent := race, wins := 0, losses := 0, total := 0, winrate := 0 }
    else acc) []

/-- The whole initial result record of get_race_specific_matchups. -/
def raceStatsInit (target_race : String) (min_elo max_elo : Option Int) : RaceStats :=
  { race := target_race, total_matches := 0, total_wins := 0, total_losses := 0
    overall_winrate := 0, matchups := raceMatchupsInit target_race
    elo_range := eloRangeStr min_elo max_elo }

/-- The final per-entry win-rate computation of get_race_specific_matchups. -/
def raceMatchupFinish (e : RaceMatchupEntry) : RaceMatchupEntry :=
  if e.total > 0 then
    { e with winrate := ((e.wins : ℚ) / (e.total : ℚ)) * 100 }
  else e

/-- The final pass of get_race_specific_matchups: the overall win rate when
the target has matches, then the per-opponent win rates. -/
def raceStatsFinalize (rs : RaceStats) : RaceStats :=
  let rs1 := if rs.total_matches > 0 then
      { rs with overall_winrate := ((rs.total_wins : ℚ) / (rs.total_matches : ℚ)) * 100 }
    else rs
  { rs1 with matchups := mapValuesA raceMatchupFinish rs1.matchups }

/-- Bot.py get_race_specific_matchups: the matchups dict is initialised with
a zero entry for every faction other than the target, matches involving the
target are tallied by opponent, and win rates are computed at the end. -/
def get_race_specific_matchups (target_race : String) (min_elo max_elo : Option Int)
    (stored : List MatchData) : RaceStats :=
  raceStatsFinalize ((filter_matches_by_elo_range min_elo max_elo stored).foldl
    (raceMatchupStep target_race) (raceStatsInit target_race min_elo max_elo))

/-- One value of the matchup_stats dict in get_all_race_matchups. -/
structure PairStats where
  race1 : String
  race2 : String
  race1_wins : Nat
  race2_wins : Nat
  total_matches : Nat
  race1_winrate : ℚ
  race2_winrate : ℚ
  elo_range : String
deriving DecidableEq

/-- The matchup_stats dict of get_all_race_matchups, modelled as a lookup
function from key strings. -/
def MatchupTable : Type := String → Option PairStats

/-- The empty dict. -/
def emptyTable : MatchupTable := fun _ => none

/-- Dict assignment for the function model. -/
def insertF (t : MatchupTable) (k : String) (v : PairStats) : MatchupTable :=
  fun key => if key = k then some v else t key

/-- In-place mutation of an existing entry for the function model. -/
def updateF (t : MatchupTable) (k : String) (f : PairStats → PairStats) : MatchupTable :=
  fun key => if key = k then (t key).map f else t key

/-- Python sorted([a, b]) for two strings: swap exactly when b < a. -/
def pySorted2 (a b : String) : String × String :=
  if pyStrLt b a then (b, a) else (a, b)

/-- The dict key get_all_race_matchups computes for a pair of slot races:
the mirror case uses the pair as is, any other pair is sorted first. -/
def matchupKey (race1 race2 : String) : String :=
  if race1 = race2 then race1 ++ " vs " ++ race2
  else (pySorted2 race1 race2).1 ++ " vs " ++ (pySorted2 race1 race2).2

/-- The initial matchup_stats dict: one zero entry for every index pair
i <= j over the 9 faction names (the f-string key is the same in both
branches of the Python conditional). -/
def allMatchupsInit (es : String) : MatchupTable :=
  factionNames.enum.foldl (fun acc p =>
    factionNames.enum.foldl (fun acc2 q =>
      if p.1 ≤ q.1 then
        insertF acc2 (p.2 ++ " vs " ++ q.2)
          { race1 := p.2, race2 := q.2, race1_wins := 0, race2_wins := 0
            total_matches := 0, race1_winrate := 0, race2_winrate := 0
            elo_range := es }
      else acc2) acc) emptyTable

/-- The increment of the pair total counter. -/
def pairBumpTotal (e : PairStats) : PairStats :=
  { e with total_matches := e.total_matches + 1 }

/-- The win attribution of get_all_race_matchups: the winning slot race is
compared with the race1 recorded in the entry, and the matching side wins
counter is incremented. -/
def pairBumpWinFor (race : String) (e : PairStats) : PairStats :=
  if race = e.race1 then { e with race1_wins := e.race1_wins + 1 }
  else { e with race2_wins := e.race2_wins + 1 }

/-- The per-match loop body of get_all_race_matchups. -/
def allMatchupsStep (t : MatchupTable) (m : MatchData) : MatchupTable :=
  let race1 := m.player1_race
  let race2 := m.player2_race
  let key := matchupKey race1 race2
  if (t key).isSome then
    let t1 := updateF t key pairBumpTotal
    let winner_race := m.winner_race
    if winner_race = race1 then
      updateF t1 key (pairBumpWinFor race1)
    else if winner_race = race2 then
      updateF t1 key (pairBumpWinFor race2)
    else t1
  else t

/-- The final per-entry win-rate computation of get_all_race_matchups. -/
def allMatchupsFinish (e : PairStats) : PairStats :=
  if e.total_matches > 0 then
    { e with race1_winrate := ((e.race1_wins : ℚ) / (e.total_matches : ℚ)) * 100
             race2_winrate := ((e.race2_wins : ℚ) / (e.total_matches : ℚ)) * 100 }
  else e

/-- Bot.py get_all_race_matchups. -/
def get_all_race_matchups (min_elo max_elo : Option Int) (stored : List MatchData) :
    MatchupTable :=
  let t := (filter_matches_by_elo_range min_elo max_elo stored).foldl allMatchupsStep
      (allMatchupsInit (eloRangeStr min_elo max_elo))
  fun key => (t key).map allMatchupsFinish

/-- One upstream leaderboardStats record; every field is read with dict.get
in Bot.py, so all fields are Option with the default applied at use. -/
structure LBStat where
  leaderboard_id : Option Int
  statgroup_id : Option Int
  rank : Option Int
  rating : Option Int
  wins : Option Int
  losses : Option Int
  drops : Option Int
  streak : Option Int
deriving DecidableEq

/-- One value of the faction_data dict built by process_leaderboard_stats. -/
structure FactionEntry where
  faction_name : String
  wins : Int
  losses : Int
  total_games : Int
  winrate : ℚ
  rank : Option Int
  rating : Int
deriving DecidableEq

/-- Bot.py process_leaderboard_stats: keep stats whose leaderboard_id is a
faction id, compute effective losses max(losses - drops, 0), total games and
win rate, and hide non-positive ranks. -/
def process_leaderboard_stats (stats : List LBStat) : List (Int × FactionEntry) :=
  stats.foldl (fun acc stat =>
    match stat.leaderboard_id with
    | none => acc
    | some lb =>
        match lookupA factions lb with
        | none => acc
        | some fname =>
            let wins := stat.wins.getD 0
            let losses := stat.losses.getD 0
            let drops := stat.drops.getD 0
            let rank := stat.rank.getD (-1)
            let rating := stat.rating.getD 0
            let actual_losses := max (losses - drops) 0
            let total_games := wins + actual_losses
            let winrate : ℚ :=
              if total_games > 0 then ((wins : ℚ) / (total_games : ℚ)) * 100 else 0
            let rank_display := if rank > 0 then some rank else none
            insertA acc lb
              { faction_name := fname, wins := wins, losses := actual_losses
                total_games := total_games, winrate := winrate
                rank := rank_display, rating := rating }) []

/-- Claim C4 counterexample: the matchup table for target race Chaos has no
entry for Chaos itself (the mirror matchup) and holds only 8 entries, not 9,
refuting the claim that every one of the 9 races appears. -/
theorem c4_counterexample_no_mirror_entry :
    lookupA (get_race_specific_matchups "Chaos" none none []).matchups "Chaos" = none ∧
    (get_race_specific_matchups "Chaos" none none []).matchups.length = 8 := by decide

theorem lookupA_initfold_guard {V : Type} (target : String) (e0 : String → V) :
    ∀ (l : List String) (acc : List (String × V)) (r : String),
      lookupA (l.foldl (fun a race =>
          if race ≠ target then insertA a race (e0 race) else a) acc) r
        = if r ∈ l ∧ r ≠ target then some (e0 r) else lookupA acc r := by
  intro l
  induction l with
  | nil => intro acc r; simp
  | cons a l ih =>
    intro acc r
    rw [List.foldl_cons, ih]
    by_cases hmem : r ∈ l ∧ r ≠ target
    · simp [hmem, List.mem_cons.mpr (Or.inr hmem.1)]
    · have hnc : ∀ h : ¬ r = a, ¬ (r ∈ a :: l ∧ r ≠ target) := by
        intro hra hc
        rcases List.mem_cons.mp hc.1 with h | h
        · exact hra h
        · exact hmem ⟨h, hc.2⟩
      by_cases hra : r = a
      · subst hra
        by_cases hrt : r = target
        · simp [hrt, hmem]
        · simp [hrt, hmem, lookupA_insertA]
      · rw [if_neg hmem, if_neg (hnc hra)]
        by_cases hat : a = target
        · simp [hat]
        · simp only [hat, ne_eq, not_false_iff, if_true, lookupA_insertA]
          rw [if_neg (fun h : a = r => hra h.symm)]

theorem isSomeMap {α β : Type} (f : α → β) (o : Option α) :
    (o.map f).isSome = o.isSome := by cases o <;> rfl

theorem isSome_lookupA_updateA {K V : Type} [DecidableEq K] (f : V → V)
    (l : List (K × V)) (k r : K) :
    (lookupA (updateA l k f) r).isSome = (lookupA l r).isSome := by
  rw [lookupA_updateA]
  by_cases h : k = r
  · subst h; rw [if_pos rfl, isSomeMap]
  · rw [if_neg h]

/-- The tally loop of get_race_specific_matchups only mutates existing
matchup entries in place, so the key set of the table never changes. -/
theorem raceMatchupStep_matchups_isSome (target_race : String) (m : MatchData)
    (rs : RaceStats) (r : String) :
    (lookupA ((raceMatchupStep target_race rs m).matchups) r).isSome
      = (lookupA rs.matchups r).isSome := by
  simp only [raceMatchupStep]
  repeat' split
  all_goals simp [isSome_lookupA_updateA]

/-- The lookup of the final matchups table of get_race_specific_matchups is
the lookup of the tallied table with the win-rate finisher mapped over it. -/
theorem get_race_specific_matchups_lookup (target_race : String)
    (min_elo max_elo : Option Int) (stored : List MatchData) (r : String) :
    lookupA (get_race_specific_matchups target_race min_elo max_elo stored).matchups r
      = (lookupA ((filter_matches_by_elo_range min_elo max_elo stored).foldl
          (raceMatchupStep target_race)
          (raceStatsInit target_race min_elo max_elo)).matchups r).map
          raceMatchupFinish := by
  simp only [get_race_specific_matchups, raceStatsFinalize]
  rw [lookupA_mapValuesA]
  congr 1
  split <;> rfl

theorem get_race_specific_matchups_isSome (target_race : String)
    (min_elo max_elo : Option Int) (stored : List MatchData) (r : String) :
    (lookupA (get_race_specific_matchups target_race min_elo max_elo
        stored).matchups r).isSome
      = (lookupA (raceMatchupsInit target_race) r).isSome := by
  rw [get_race_specific_matchups_lookup, isSomeMap]
  exact foldl_preserve
    (fun rs : RaceStats => ∀ x : String,
      (lookupA rs.matchups x).isSome = (lookupA (raceMatchupsInit target_race) x).isSome)
    (raceMatchupStep target_race)
    (filter_matches_by_elo_range min_elo max_elo stored)
    (raceStatsInit target_race min_elo max_elo)
    (fun _ => rfl)
    (fun rs m _ hP x => (raceMatchupStep_matchups_isSome target_race m rs x).trans (hP x))
    r

theorem raceMatchupsInit_lookup (target_race r : String) :
    lookupA (raceMatchupsInit target_race) r
      = if r ∈ factionNames ∧ r ≠ target_race then
          some { opponent := r, wins := 0, losses := 0, total := 0, winrate := 0 }
        else none :=
  lookupA_initfold_guard target_race
    (fun race => ({ opponent := race, wins := 0, losses := 0, total := 0
                    winrate := 0 } : RaceMatchupEntry))
    factionNames [] r

/-- Claim C4 amended: for every target race, elo range and store contents,
the matchup table returned by get_race_specific_matchups contains an entry
for each of the 8 factions OTHER than the target (races with zero games
against the target included, with zero counts), but no entry for the target
race itself: the mirror matchup is absent from the table. -/
theorem c4_matchup_table_covers_other_races (target_race : String)
    (min_elo max_elo : Option Int) (stored : List MatchData) (race : String)
    (hrace : race ∈ factionNames) :
    (race ≠ target_race →
      (lookupA (get_race_specific_matchups target_race min_elo max_elo
        stored).matchups race).isSome = true) ∧
    lookupA (get_race_specific_matchups target_race min_elo max_elo
      stored).matchups target_race = none := by
  constructor
  · intro hne
    rw [get_race_specific_matchups_isSome, raceMatchupsInit_lookup,
      if_pos ⟨hrace, hne⟩]
    rfl
  · have h := get_race_specific_matchups_isSome target_race min_elo max_elo
      stored target_race
    rw [raceMatchupsInit_lookup, if_neg (fun hc => hc.2 rfl)] at h
    cases hl : lookupA (get_race_specific_matchups target_race min_elo max_elo
        stored).matchups target_race with
    | none => rfl
    | some e => rw [hl] at h; simp at h

/-- Witness for the amended C4: the Eldar entry exists in the Chaos table of
an empty store and the Chaos mirror entry is absent. -/
theorem c4_matchup_table_covers_other_races_witness :
    ("Eldar" ∈ factionNames ∧ ("Eldar" : String) ≠ "Chaos") ∧
    ((("Eldar" : String) ≠ "Chaos" →
      (lookupA (get_race_specific_matchups "Chaos" none none []).matchups
        "Eldar").isSome = true) ∧
     lookupA (get_race_specific_matchups "Chaos" none none []).matchups "Chaos"
       = none) :=
  ⟨⟨by decide, by decide⟩,
    c4_matchup_table_covers_other_races "Chaos" none none [] "Eldar" (by decide)⟩

theorem winrateBounds (w t : ℚ) (h0 : 0 ≤ w) (hwt : w ≤ t) (ht : 0 < t) :
    0 ≤ w / t * 100 ∧ w / t * 100 ≤ 100 := by
  constructor
  · exact mul_nonneg (div_nonneg h0 ht.le) (by norm_num)
  · rw [div_mul_eq_mul_div, div_le_iff₀ ht]
    nlinarith

theorem lookupA_initfold {K V : Type} [DecidableEq K] (e0 : V) :
    ∀ (l : List K) (acc : List (K × V)) (r : K),
      lookupA (l.foldl (fun a k => insertA a k e0) acc) r
        = if r ∈ l then some e0 else lookupA acc r := by
  intro l
  induction l with
  | nil => intro acc r; simp
  | cons a l ih =>
    intro acc r
    rw [List.foldl_cons, ih]
    by_cases hmem : r ∈ l
    · simp [hmem]
    · by_cases hra : r = a
      · subst hra
        simp [hmem, lookupA_insertA]
      · have hnm : ¬ r ∈ a :: l := by
          intro hc
          rcases List.mem_cons.mp hc with h | h
          · exact hra h
          · exact hmem h
        rw [if_neg hmem, if_neg hnm, lookupA_insertA,
          if_neg (fun h : a = r => hra h.symm)]

theorem qOfLookup_insertA {K V : Type} [DecidableEq K] (Q : V → Prop)
    (l : List (K × V)) (k : K) (v : V) (hv : Q v)
    (hP : ∀ r e, lookupA l r = some e → Q e) :
    ∀ r e, lookupA (insertA l k v) r = some e → Q e := by
  intro r e h
  rw [lookupA_insertA] at h
  by_cases hk : k = r
  · rw [if_pos hk, Option.some_inj] at h
    exact h ▸ hv
  · rw [if_neg hk] at h
    exact hP r e h

theorem qOfLookup_updateA {K V : Type} [DecidableEq K] (Q : V → Prop) (f : V → V)
    (hf : ∀ v, Q v → Q (f v)) (l : List (K × V)) (k : K)
    (hP : ∀ r e, lookupA l r = some e → Q e) :
    ∀ r e, lookupA (updateA l k f) r = some e → Q e := by
  intro r e h
  rw [lookupA_updateA] at h
  by_cases hk : k = r
  · rw [if_pos hk] at h
    cases hl : lookupA l k with
    | none => rw [hl] at h; simp at h
    | some v =>
        rw [hl] at h
        simp only [Option.map_some', Option.some_inj] at h
        exact h ▸ hf v (hP k v hl)
  · rw [if_neg hk] at h
    exact hP r e h

theorem lookupA_updateA2 {K V : Type} [DecidableEq K] (f g : V → V)
    (l : List (K × V)) (k r : K) :
    lookupA (updateA (updateA l k f) k g) r
      = if k = r then (lookupA l k).map (fun v => g (f v)) else lookupA l r := by
  by_cases hk : k = r <;>
    simp [lookupA_updateA, hk, Option.map_map, Function.comp_def]

theorem qOfLookup_updateA2 {K V : Type} [DecidableEq K] (Q : V → Prop) (f g : V → V)
    (hfg : ∀ v, Q v → Q (g (f v))) (l : List (K × V)) (k : K)
    (hP : ∀ r e, lookupA l r = some e → Q e) :
    ∀ r e, lookupA (updateA (updateA l k f) k g) r = some e → Q e := by
  intro r e h
  rw [lookupA_updateA2] at h
  by_cases hk : k = r
  · rw [if_pos hk] at h
    cases hl : lookupA l k with
    | none => rw [hl] at h; simp at h
    | some v =>
        rw [hl] at h
        simp only [Option.map_some', Option.some_inj] at h
        exact h ▸ hfg v (hP k v hl)
  · rw [if_neg hk] at h
    exact hP r e h

/-- The per-map tally loop keeps wins at most total games, and never writes
the win-rate field. -/
theorem mapRaceStep_preserves (map_name : String) (m : MatchData) (ms : MapStats)
    (hP : ∀ r e, lookupA ms.race_stats r = some e →
      e.wins ≤ e.total_games ∧ e.winrate = 0) :
    ∀ r e, lookupA (mapRaceStep map_name ms m).race_stats r = some e →
      e.wins ≤ e.total_games ∧ e.winrate = 0 := by
  have hf1 : ∀ e : MapRaceEntry, e.wins ≤ e.total_games ∧ e.winrate = 0 →
      ({ e with wins := e.wins + 1, total_games := e.total_games + 1 } : MapRaceEntry).wins
        ≤ ({ e with wins := e.wins + 1, total_games := e.total_games + 1 } : MapRaceEntry).total_games ∧
      ({ e with wins := e.wins + 1, total_games := e.total_games + 1 } : MapRaceEntry).winrate = 0 :=
    fun e he => ⟨Nat.succ_le_succ he.1, he.2⟩
  have hf2 : ∀ e : MapRaceEntry, e.wins ≤ e.total_games ∧ e.winrate = 0 →
      ({ e with losses := e.losses + 1, total_games := e.total_games + 1 } : MapRaceEntry).wins
        ≤ ({ e with losses := e.losses + 1, total_games := e.total_games + 1 } : MapRaceEntry).total_games ∧
      ({ e with losses := e.losses + 1, total_games := e.total_games + 1 } : MapRaceEntry).winrate = 0 :=
    fun e he => ⟨Nat.le_succ_of_le he.1, he.2⟩
  intro r e h
  simp only [mapRaceStep] at h
  repeat' split at h
  all_goals
    first
    | exact hP r e h
    | exact qOfLookup_updateA _ _ hf1 _ _ hP r e h
    | exact qOfLookup_updateA _ _ hf2 _ _ hP r e h
    | exact qOfLookup_updateA _ _ hf2 _ _ (qOfLookup_updateA _ _ hf1 _ _ hP) r e h

theorem mapStatsInit_entries (map_name : String) (min_elo max_elo : Option Int) :
    ∀ r e, lookupA (mapStatsInit map_name min_elo max_elo).race_stats r = some e →
      e.wins ≤ e.total_games ∧ e.winrate = 0 := by
  intro r e h
  simp only [mapStatsInit] at h
  rw [lookupA_initfold] at h
  by_cases hr : r ∈ factionNames
  · rw [if_pos hr, Option.some_inj] at h
    exact h ▸ ⟨Nat.le_refl 0, rfl⟩
  · rw [if_neg hr] at h
    simp [lookupA] at h

/-- The tally loop of get_race_specific_matchups keeps total wins at most
total matches, per-opponent wins at most per-opponent totals, and never
writes a win-rate field. -/
theorem raceMatchupStep_preserves (target_race : String) (m : MatchData)
    (rs : RaceStats)
    (hP : (rs.total_wins ≤ rs.total_matches ∧ rs.overall_winrate = 0) ∧
      ∀ r e, lookupA rs.matchups r = some e → e.wins ≤ e.total ∧ e.winrate = 0) :
    ((raceMatchupStep target_race rs m).total_wins
        ≤ (raceMatchupStep target_race rs m).total_matches ∧
      (raceMatchupStep target_race rs m).overall_winrate = 0) ∧
    ∀ r e, lookupA (raceMatchupStep target_race rs m).matchups r = some e →
      e.wins ≤ e.total ∧ e.winrate = 0 := by
  obtain ⟨⟨hR1, hR2⟩, hQ⟩ := hP
  have hfgW : ∀ v : RaceMatchupEntry, v.wins ≤ v.total ∧ v.winrate = 0 →
      (bumpWins (bumpTotal v)).wins ≤ (bumpWins (bumpTotal v)).total ∧
      (bumpWins (bumpTotal v)).winrate = 0 :=
    fun v hv => ⟨Nat.succ_le_succ hv.1, hv.2⟩
  have hfgL : ∀ v : RaceMatchupEntry, v.wins ≤ v.total ∧ v.winrate = 0 →
      (bumpLosses (bumpTotal v)).wins ≤ (bumpLosses (bumpTotal v)).total ∧
      (bumpLosses (bumpTotal v)).winrate = 0 :=
    fun v hv => ⟨Nat.le_succ_of_le hv.1, hv.2⟩
  simp only [raceMatchupStep]
  repeat' split
  all_goals refine ⟨⟨?_, ?_⟩, ?_⟩
  all_goals dsimp only
  all_goals
    first
    | omega
    | exact hR2
    | exact hQ
    | exact qOfLookup_updateA2 _ bumpTotal bumpWins hfgW _ _ hQ
    | exact qOfLookup_updateA2 _ bumpTotal bumpLosses hfgL _ _ hQ

theorem raceStatsInit_invariant (target_race : String) (min_elo max_elo : Option Int) :
    ((raceStatsInit target_race min_elo max_elo).total_wins
        ≤ (raceStatsInit target_race min_elo max_elo).total_matches ∧
      (raceStatsInit target_race min_elo max_elo).overall_winrate = 0) ∧
    ∀ r e, lookupA (raceStatsInit target_race min_elo max_elo).matchups r = some e →
      e.wins ≤ e.total ∧ e.winrate = 0 := by
  refine ⟨⟨Nat.le_refl 0, rfl⟩, ?_⟩
  intro r e h
  rw [show (raceStatsInit target_race min_elo max_elo).matchups
      = raceMatchupsInit target_race from rfl, raceMatchupsInit_lookup] at h
  by_cases hr : r ∈ factionNames ∧ r ≠ target_race
  · rw [if_pos hr, Option.some_inj] at h
    exact h ▸ ⟨Nat.le_refl 0, rfl⟩
  · rw [if_neg hr] at h
    simp at h

theorem raceStatsFinalize_overall (rs : RaceStats) :
    (raceStatsFinalize rs).overall_winrate
      = if rs.total_matches > 0 then
          ((rs.total_wins : ℚ) / (rs.total_matches : ℚ)) * 100
        else rs.overall_winrate := by
  simp only [raceStatsFinalize]
  split <;> rfl

theorem raceStatsFinalize_total (rs : RaceStats) :
    (raceStatsFinalize rs).total_matches = rs.total_matches := by
  simp only [raceStatsFinalize]
  split <;> rfl

/-- Single-update analogue of qOfLookup_updateF2 for the function model. -/
theorem qOfLookup_updateF (Q : PairStats → Prop) (f : PairStats → PairStats)
    (hf : ∀ v, Q v → Q (f v)) (t : MatchupTable) (k : String)
    (hP : ∀ k2 e, t k2 = some e → Q e) :
    ∀ k2 e, updateF t k f k2 = some e → Q e := by
  intro k2 e h
  unfold updateF at h
  by_cases hk : k2 = k
  · rw [if_pos hk] at h
    cases hl : t k2 with
    | none => rw [hl] at h; simp at h
    | some v =>
        rw [hl] at h
        simp only [Option.map_some', Option.some_inj] at h
        exact h ▸ hf v (hP k2 v hl)
  · rw [if_neg hk] at h
    exact hP k2 e h

theorem updateF2_lookup (t : MatchupTable) (k : String)
    (f g : PairStats → PairStats) (key : String) :
    updateF (updateF t k f) k g key
      = if key = k then (t k).map (fun v => g (f v)) else t key := by
  by_cases hk : key = k <;>
    simp [updateF, hk, Option.map_map, Function.comp_def]

theorem qOfLookup_updateF2 (Q : PairStats → Prop) (f g : PairStats → PairStats)
    (hfg : ∀ v, Q v → Q (g (f v))) (t : MatchupTable) (k : String)
    (hP : ∀ k2 e, t k2 = some e → Q e) :
    ∀ k2 e, updateF (updateF t k f) k g k2 = some e → Q e := by
  intro k2 e h
  rw [updateF2_lookup] at h
  by_cases hk : k2 = k
  · rw [if_pos hk] at h
    cases hl : t k with
    | none => rw [hl] at h; simp at h
    | some v =>
        rw [hl] at h
        simp only [Option.map_some', Option.some_inj] at h
        exact h ▸ hfg v (hP k v hl)
  · rw [if_neg hk] at h
    exact hP k2 e h

theorem qOfLookup_insertF (Q : PairStats → Prop) (t : MatchupTable) (k : String)
    (v : PairStats) (hv : Q v) (hP : ∀ k2 e, t k2 = some e → Q e) :
    ∀ k2 e, insertF t k v k2 = some e → Q e := by
  intro k2 e h
  unfold insertF at h
  by_cases hk : k2 = k
  · rw [if_pos hk, Option.some_inj] at h
    exact h ▸ hv
  · rw [if_neg hk] at h
    exact hP k2 e h

/-- Every entry of the initial global matchup table has zero counts and zero
win rates. -/
theorem allMatchupsInit_entries (es : String) :
    ∀ k e, allMatchupsInit es k = some e →
      e.race1_wins + e.race2_wins ≤ e.total_matches ∧
      e.race1_winrate = 0 ∧ e.race2_winrate = 0 := by
  unfold allMatchupsInit
  refine foldl_preserve (fun t : MatchupTable => ∀ k e, t k = some e →
      e.race1_wins + e.race2_wins ≤ e.total_matches ∧
      e.race1_winrate = 0 ∧ e.race2_winrate = 0) _ _ _ ?_ ?_
  · intro k e h
    exact absurd h (by simp [emptyTable])
  · intro t p _ hP
    refine foldl_preserve (fun t : MatchupTable => ∀ k e, t k = some e →
        e.race1_wins + e.race2_wins ≤ e.total_matches ∧
        e.race1_winrate = 0 ∧ e.race2_winrate = 0) _ _ _ hP ?_
    intro t2 q _ hP2
    by_cases hij : p.1 ≤ q.1
    · rw [if_pos hij]
      exact qOfLookup_insertF _ _ _ _ ⟨Nat.le_refl 0, rfl, rfl⟩ hP2
    · rw [if_neg hij]
      exact hP2

/-- The tally loop of get_all_race_matchups keeps the two win counters
summing to at most the total, and never writes a win-rate field. -/
theorem allMatchupsStep_preserves (m : MatchData) (t : MatchupTable)
    (hP : ∀ k e, t k = some e →
      e.race1_wins + e.race2_wins ≤ e.total_matches ∧
      e.race1_winrate = 0 ∧ e.race2_winrate = 0) :
    ∀ k e, allMatchupsStep t m k = some e →
      e.race1_wins + e.race2_wins ≤ e.total_matches ∧
      e.race1_winrate = 0 ∧ e.race2_winrate = 0 := by
  have hbump : ∀ (race : String) (v : PairStats),
      (v.race1_wins + v.race2_wins ≤ v.total_matches ∧
        v.race1_winrate = 0 ∧ v.race2_winrate = 0) →
      ((pairBumpWinFor race (pairBumpTotal v)).race1_wins
          + (pairBumpWinFor race (pairBumpTotal v)).race2_wins
          ≤ (pairBumpWinFor race (pairBumpTotal v)).total_matches ∧
        (pairBumpWinFor race (pairBumpTotal v)).race1_winrate = 0 ∧
        (pairBumpWinFor race (pairBumpTotal v)).race2_winrate = 0) := by
    intro race v hv
    obtain ⟨h1, h2, h3⟩ := hv
    unfold pairBumpWinFor pairBumpTotal
    split <;> exact ⟨by dsimp only; omega, h2, h3⟩
  have hbumpT : ∀ v : PairStats,
      (v.race1_wins + v.race2_wins ≤ v.total_matches ∧
        v.race1_winrate = 0 ∧ v.race2_winrate = 0) →
      ((pairBumpTotal v).race1_wins + (pairBumpTotal v).race2_wins
          ≤ (pairBumpTotal v).total_matches ∧
        (pairBumpTotal v).race1_winrate = 0 ∧ (pairBumpTotal v).race2_winrate = 0) := by
    intro v hv
    obtain ⟨h1, h2, h3⟩ := hv
    exact ⟨Nat.le_succ_of_le h1, h2, h3⟩
  intro k e h
  simp only [allMatchupsStep] at h
  repeat' split at h
  all_goals
    first
    | exact hP k e h
    | exact qOfLookup_updateF2 _ pairBumpTotal (pairBumpWinFor m.player1_race)
        (hbump m.player1_race) _ _ hP k e h
    | exact qOfLookup_updateF2 _ pairBumpTotal (pairBumpWinFor m.player2_race)
        (hbump m.player2_race) _ _ hP k e h
    | exact qOfLookup_updateF _ pairBumpTotal hbumpT _ _ hP k e h

/-- Every entry of process_leaderboard_stats has a win rate in the unit
range and zero when the total is zero, provided the upstream win counts are
not negative. -/
theorem process_leaderboard_entries (stats : List LBStat)
    (hw : ∀ s ∈ stats, 0 ≤ s.wins.getD 0) :
    ∀ lb e, lookupA (process_leaderboard_stats stats) lb = some e →
      0 ≤ e.winrate ∧ e.winrate ≤ 100 ∧ (e.total_games = 0 → e.winrate = 0) := by
  unfold process_leaderboard_stats
  refine foldl_preserve (fun acc : List (Int × FactionEntry) => ∀ lb e,
      lookupA acc lb = some e →
      0 ≤ e.winrate ∧ e.winrate ≤ 100 ∧ (e.total_games = 0 → e.winrate = 0)) _ _ _ ?_ ?_
  · intro lb e h
    simp [lookupA] at h
  · intro acc s hs hP
    cases hlb : s.leaderboard_id with
    | none => exact hP
    | some lb0 =>
        dsimp only
        cases hf : lookupA factions lb0 with
        | none => exact hP
        | some fname =>
            dsimp only
            refine qOfLookup_insertA _ _ _ _ ?_ hP
            have hw0 := hw s hs
            constructor
            · dsimp only
              split <;> rename_i ht
              · have hle : (s.wins.getD 0 : ℚ)
                    ≤ ((s.wins.getD 0 + max (s.losses.getD 0 - s.drops.getD 0) 0 : ℤ) : ℚ) := by
                  exact_mod_cast le_add_of_nonneg_right
                    (le_max_right (s.losses.getD 0 - s.drops.getD 0) (0 : ℤ))
                have hpos : (0:ℚ)
                    < ((s.wins.getD 0 + max (s.losses.getD 0 - s.drops.getD 0) 0 : ℤ) : ℚ) := by
                  exact_mod_cast ht
                have hnn : (0:ℚ) ≤ (s.wins.getD 0 : ℚ) := by exact_mod_cast hw0
                exact (winrateBounds _ _ hnn hle hpos).1
              · exact le_refl 0
            constructor
            · dsimp only
              split <;> rename_i ht
              · have hle : (s.wins.getD 0 : ℚ)
                    ≤ ((s.wins.getD 0 + max (s.losses.getD 0 - s.drops.getD 0) 0 : ℤ) : ℚ) := by
                  exact_mod_cast le_add_of_nonneg_right
                    (le_max_right (s.losses.getD 0 - s.drops.getD 0) (0 : ℤ))
                have hpos : (0:ℚ)
                    < ((s.wins.getD 0 + max (s.losses.getD 0 - s.drops.getD 0) 0 : ℤ) : ℚ) := by
                  exact_mod_cast ht
                have hnn : (0:ℚ) ≤ (s.wins.getD 0 : ℚ) := by exact_mod_cast hw0
                exact (winrateBounds _ _ hnn hle hpos).2
              · norm_num
            · intro h0
              dsimp only at h0 ⊢
              rw [if_neg (by omega)]

theorem mapRaceFinish_bounds (e0 : MapRaceEntry)
    (hq : e0.wins ≤ e0.total_games ∧ e0.winrate = 0) :
    0 ≤ (mapRaceFinish e0).winrate ∧ (mapRaceFinish e0).winrate ≤ 100 ∧
    ((mapRaceFinish e0).total_games = 0 → (mapRaceFinish e0).winrate = 0) := by
  unfold mapRaceFinish
  split <;> rename_i ht
  · have hw : ((e0.wins : ℚ)) ≤ (e0.total_games : ℚ) := by exact_mod_cast hq.1
    have hpos : (0:ℚ) < (e0.total_games : ℚ) := by exact_mod_cast ht
    have hb := winrateBounds _ _ (by positivity) hw hpos
    refine ⟨hb.1, hb.2, ?_⟩
    intro h0
    dsimp only at h0
    exact absurd h0 (by omega)
  · exact ⟨le_of_eq hq.2.symm, by rw [hq.2]; norm_num, fun _ => hq.2⟩

theorem raceMatchupFinish_bounds (e0 : RaceMatchupEntry)
    (hq : e0.wins ≤ e0.total ∧ e0.winrate = 0) :
    0 ≤ (raceMatchupFinish e0).winrate ∧ (raceMatchupFinish e0).winrate ≤ 100 ∧
    ((raceMatchupFinish e0).total = 0 → (raceMatchupFinish e0).winrate = 0) := by
  unfold raceMatchupFinish
  split <;> rename_i ht
  · have hw : ((e0.wins : ℚ)) ≤ (e0.total : ℚ) := by exact_mod_cast hq.1
    have hpos : (0:ℚ) < (e0.total : ℚ) := by exact_mod_cast ht
    have hb := winrateBounds _ _ (by positivity) hw hpos
    refine ⟨hb.1, hb.2, ?_⟩
    intro h0
    dsimp only at h0
    exact absurd h0 (by omega)
  · exact ⟨le_of_eq hq.2.symm, by rw [hq.2]; norm_num, fun _ => hq.2⟩

theorem allMatchupsFinish_bounds (e0 : PairStats)
    (hq : e0.race1_wins + e0.race2_wins ≤ e0.total_matches ∧
      e0.race1_winrate = 0 ∧ e0.race2_winrate = 0) :
    (0 ≤ (allMatchupsFinish e0).race1_winrate ∧
      (allMatchupsFinish e0).race1_winrate ≤ 100 ∧
      0 ≤ (allMatchupsFinish e0).race2_winrate ∧
      (allMatchupsFinish e0).race2_winrate ≤ 100) ∧
    ((allMatchupsFinish e0).total_matches = 0 →
      (allMatchupsFinish e0).race1_winrate = 0 ∧
      (allMatchupsFinish e0).race2_winrate = 0) := by
  obtain ⟨h1, h2, h3⟩ := hq
  unfold allMatchupsFinish
  split <;> rename_i ht
  · have hw1 : ((e0.race1_wins : ℚ)) ≤ (e0.total_matches : ℚ) := by
      exact_mod_cast le_trans (Nat.le_add_right _ _) h1
    have hw2 : ((e0.race2_wins : ℚ)) ≤ (e0.total_matches : ℚ) := by
      exact_mod_cast le_trans (Nat.le_add_left _ _) h1
    have hpos : (0:ℚ) < (e0.total_matches : ℚ) := by exact_mod_cast ht
    have hb1 := winrateBounds _ _ (by positivity) hw1 hpos
    have hb2 := winrateBounds _ _ (by positivity) hw2 hpos
    refine ⟨⟨hb1.1, hb1.2, hb2.1, hb2.2⟩, ?_⟩
    intro h0
    dsimp only at h0
    exact absurd h0 (by omega)
  · exact ⟨⟨le_of_eq h2.symm, by rw [h2]; norm_num,
      le_of_eq h3.symm, by rw [h3]; norm_num⟩, fun _ => ⟨h2, h3⟩⟩

/-- Claim C7: every win-rate value produced by the aggregation functions of
Bot.py (per-map race stats, per-race matchup tables, the global matchup
matrix, leaderboard stat processing) lies in the interval 0..100, and a zero
total-games count always yields a win rate of exactly 0 rather than an
error; the leaderboard part assumes the upstream win counts are not
negative, as win counts are. -/
theorem c7_winrates_always_in_range :
    (∀ (map_name : String) (min_elo max_elo : Option Int)
        (stored : List MatchData) (race : String) (e : MapRaceEntry),
        lookupA (get_map_race_statistics map_name min_elo max_elo stored).race_stats race
          = some e →
        0 ≤ e.winrate ∧ e.winrate ≤ 100 ∧ (e.total_games = 0 → e.winrate = 0)) ∧
    (∀ (target_race : String) (min_elo max_elo : Option Int) (stored : List MatchData),
        (0 ≤ (get_race_specific_matchups target_race min_elo max_elo
            stored).overall_winrate ∧
          (get_race_specific_matchups target_race min_elo max_elo
            stored).overall_winrate ≤ 100 ∧
          ((get_race_specific_matchups target_race min_elo max_elo
              stored).total_matches = 0 →
            (get_race_specific_matchups target_race min_elo max_elo
              stored).overall_winrate = 0)) ∧
        ∀ (race : String) (e : RaceMatchupEntry),
          lookupA (get_race_specific_matchups target_race min_elo max_elo
              stored).matchups race = some e →
          0 ≤ e.winrate ∧ e.winrate ≤ 100 ∧ (e.total = 0 → e.winrate = 0)) ∧
    (∀ (min_elo max_elo : Option Int) (stored : List MatchData)
        (key : String) (e : PairStats),
        get_all_race_matchups min_elo max_elo stored key = some e →
        (0 ≤ e.race1_winrate ∧ e.race1_winrate ≤ 100 ∧
          0 ≤ e.race2_winrate ∧ e.race2_winrate ≤ 100) ∧
        (e.total_matches = 0 → e.race1_winrate = 0 ∧ e.race2_winrate = 0)) ∧
    (∀ (stats : List LBStat) (lb : Int) (e : FactionEntry),
        (∀ s ∈ stats, 0 ≤ s.wins.getD 0) →
        lookupA (process_leaderboard_stats stats) lb = some e →
        0 ≤ e.winrate ∧ e.winrate ≤ 100 ∧ (e.total_games = 0 → e.winrate = 0)) := by
  refine ⟨?_, ?_, ?_, ?_⟩
  · intro map_name min_elo max_elo stored race e h
    have hloop := foldl_preserve
      (fun ms : MapStats => ∀ r e, lookupA ms.race_stats r = some e →
        e.wins ≤ e.total_games ∧ e.winrate = 0)
      (mapRaceStep map_name)
      (filter_matches_by_elo_range min_elo max_elo stored)
      (mapStatsInit map_name min_elo max_elo)
      (mapStatsInit_entries map_name min_elo max_elo)
      (fun ms m _ hP => mapRaceStep_preserves map_name m ms hP)
    simp only [get_map_race_statistics] at h
    rw [lookupA_mapValuesA] at h
    cases hl : lookupA (((filter_matches_by_elo_range min_elo max_elo stored).foldl
        (mapRaceStep map_name) (mapStatsInit map_name min_elo max_elo)).race_stats)
        race with
    | none => rw [hl] at h; simp at h
    | some e0 =>
        rw [hl] at h
        simp only [Option.map_some', Option.some_inj] at h
        exact h ▸ mapRaceFinish_bounds e0 (hloop race e0 hl)
  · intro target_race min_elo max_elo stored
    have hloop := foldl_preserve
      (fun rs : RaceStats =>
        (rs.total_wins ≤ rs.total_matches ∧ rs.overall_winrate = 0) ∧
        ∀ r e, lookupA rs.matchups r = some e → e.wins ≤ e.total ∧ e.winrate = 0)
      (raceMatchupStep target_race)
      (filter_matches_by_elo_range min_elo max_elo stored)
      (raceStatsInit target_race min_elo max_elo)
      (raceStatsInit_invariant target_race min_elo max_elo)
      (fun rs m _ hP => raceMatchupStep_preserves target_race m rs hP)
    obtain ⟨⟨hR1, hR2⟩, hQ⟩ := hloop
    constructor
    · simp only [get_race_specific_matchups]
      rw [raceStatsFinalize_overall, raceStatsFinalize_total]
      split <;> rename_i ht
      · refine ⟨?_, ?_, ?_⟩
        · exact (winrateBounds _ _ (by positivity)
            (by exact_mod_cast hR1) (by exact_mod_cast ht)).1
        · exact (winrateBounds _ _ (by positivity)
            (by exact_mod_cast hR1) (by exact_mod_cast ht)).2
        · intro h0
          exact absurd h0 (by omega)
      · exact ⟨le_of_eq hR2.symm, by rw [hR2]; norm_num, fun _ => hR2⟩
    · intro race e h
      rw [get_race_specific_matchups_lookup] at h
      cases hl : lookupA (((filter_matches_by_elo_range min_elo max_elo stored).foldl
          (raceMatchupStep target_race)
          (raceStatsInit target_race min_elo max_elo)).matchups) race with
      | none => rw [hl] at h; simp at h
      | some e0 =>
          rw [hl] at h
          simp only [Option.map_some', Option.some_inj] at h
          exact h ▸ raceMatchupFinish_bounds e0 (hQ race e0 hl)
  · intro min_elo max_elo stored key e h
    have hloop := foldl_preserve
      (fun t : MatchupTable => ∀ k e, t k = some e →
        e.race1_wins + e.race2_wins ≤ e.total_matches ∧
        e.race1_winrate = 0 ∧ e.race2_winrate = 0)
      allMatchupsStep
      (filter_matches_by_elo_range min_elo max_elo stored)
      (allMatchupsInit (eloRangeStr min_elo max_elo))
      (allMatchupsInit_entries (eloRangeStr min_elo max_elo))
      (fun t m _ hP => allMatchupsStep_preserves m t hP)
    simp only [get_all_race_matchups] at h
    cases hl : ((filter_matches_by_elo_range min_elo max_elo stored).foldl
        allMatchupsStep (allMatchupsInit (eloRangeStr min_elo max_elo))) key with
    | none => rw [hl] at h; simp at h
    | some e0 =>
        rw [hl] at h
        simp only [Option.map_some', Option.some_inj] at h
        exact h ▸ allMatchupsFinish_bounds e0 (hloop key e0 hl)
  · intro stats lb e hw h
    exact process_leaderboard_entries stats hw lb e h

/-- The zero per-map race entry produced for Chaos on an empty store. -/
def c7MapEntry : MapRaceEntry :=
  { wins := 0, losses := 0, total_games := 0, winrate := 0 }

/-- The zero Eldar matchup entry in the Chaos table of an empty store. -/
def c7RaceEntry : RaceMatchupEntry :=
  { opponent := "Eldar", wins := 0, losses := 0, total := 0, winrate := 0 }

/-- The zero Chaos-vs-Eldar entry in the matrix of an empty store. -/
def c7PairEntry : PairStats :=
  { race1 := "Chaos", race2 := "Eldar", race1_wins := 0, race2_wins := 0
    total_matches := 0, race1_winrate := 0, race2_winrate := 0
    elo_range := "Any-Any" }

/-- A leaderboard stat with zero games for the C7 witness. -/
def c7Stat : LBStat :=
  { leaderboard_id := some 1, statgroup_id := some 3, rank := some 2
    rating := some 1500, wins := some 0, losses := some 0, drops := some 0
    streak := some 0 }

/-- The faction entry process_leaderboard_stats builds from c7Stat. -/
def c7LBEntry : FactionEntry :=
  { faction_name := "Chaos", wins := 0, losses := 0, total_games := 0
    winrate := 0, rank := some 2, rating := 1500 }

/-- Witness for C7: all four aggregation functions applied at concrete
inputs, discharging every hypothesis. -/
theorem c7_winrates_always_in_range_witness :
    (lookupA (get_map_race_statistics "Blood River" none none []).race_stats "Chaos"
        = some c7MapEntry ∧
      (0 ≤ c7MapEntry.winrate ∧ c7MapEntry.winrate ≤ 100 ∧
        (c7MapEntry.total_games = 0 → c7MapEntry.winrate = 0))) ∧
    (lookupA (get_race_specific_matchups "Chaos" none none []).matchups "Eldar"
        = some c7RaceEntry ∧
      (0 ≤ c7RaceEntry.winrate ∧ c7RaceEntry.winrate ≤ 100 ∧
        (c7RaceEntry.total = 0 → c7RaceEntry.winrate = 0))) ∧
    (get_all_race_matchups none none [] "Chaos vs Eldar" = some c7PairEntry ∧
      ((0 ≤ c7PairEntry.race1_winrate ∧ c7PairEntry.race1_winrate ≤ 100 ∧
        0 ≤ c7PairEntry.race2_winrate ∧ c7PairEntry.race2_winrate ≤ 100) ∧
        (c7PairEntry.total_matches = 0 →
          c7PairEntry.race1_winrate = 0 ∧ c7PairEntry.race2_winrate = 0))) ∧
    ((∀ s ∈ [c7Stat], 0 ≤ s.wins.getD 0) ∧
      lookupA (process_leaderboard_stats [c7Stat]) 1 = some c7LBEntry ∧
      (0 ≤ c7LBEntry.winrate ∧ c7LBEntry.winrate ≤ 100 ∧
        (c7LBEntry.total_games = 0 → c7LBEntry.winrate = 0))) :=
  ⟨⟨by decide, c7_winrates_always_in_range.1 "Blood River" none none [] "Chaos"
      c7MapEntry (by decide)⟩,
   ⟨by decide, (c7_winrates_always_in_range.2.1 "Chaos" none none []).2 "Eldar"
      c7RaceEntry (by decide)⟩,
   ⟨by decide, c7_winrates_always_in_range.2.2.1 none none [] "Chaos vs Eldar"
      c7PairEntry (by decide)⟩,
   ⟨by decide, by decide, c7_winrates_always_in_range.2.2.2 [c7Stat] 1 c7LBEntry
      (by decide) (by decide)⟩⟩

theorem pyLtChars_irrefl : ∀ as : List Char, pyLtChars as as = false := by
  intro as
  induction as with
  | nil => rfl
  | cons a l ih => simp [pyLtChars, ih]

theorem pyLtChars_conn : ∀ as bs : List Char,
    pyLtChars as bs = false → pyLtChars bs as = false → as = bs := by
  intro as
  induction as with
  | nil =>
    intro bs h1 _
    cases bs with
    | nil => rfl
    | cons b l => simp [pyLtChars] at h1
  | cons a l ih =>
    intro bs h1 h2
    cases bs with
    | nil => simp [pyLtChars] at h2
    | cons b m =>
        rcases lt_trichotomy a b with hab | hab | hab
        · simp [pyLtChars, hab] at h1
        · subst hab
          simp only [pyLtChars, lt_irrefl, if_false] at h1 h2
          rw [ih m h1 h2]
        · simp [pyLtChars, hab, not_lt_of_gt hab] at h2

theorem pyLtChars_asymm : ∀ as bs : List Char,
    pyLtChars as bs = true → pyLtChars bs as = false := by
  intro as
  induction as with
  | nil =>
    intro bs h
    cases bs with
    | nil => simp [pyLtChars] at h
    | cons b m => simp [pyLtChars]
  | cons a l ih =>
    intro bs h
    cases bs with
    | nil => simp [pyLtChars] at h
    | cons b m =>
        rcases lt_trichotomy a b with hab | hab | hab
        · simp [pyLtChars, hab, not_lt_of_gt hab]
        · subst hab
          simp only [pyLtChars, lt_self_iff_false, if_false] at h ⊢
          exact ih m h
        · simp [pyLtChars, hab, not_lt_of_gt hab] at h

theorem pyStrLt_asymm {a b : String} (h : pyStrLt a b = true) :
    pyStrLt b a = false :=
  pyLtChars_asymm _ _ h

theorem pyStrLt_conn {a b : String} (h1 : pyStrLt a b = false)
    (h2 : pyStrLt b a = false) : a = b := by
  have hd : a.data = b.data := pyLtChars_conn _ _ h1 h2
  cases a
  cases b
  exact congrArg String.mk hd

theorem pyStrLt_irrefl (a : String) : pyStrLt a a = false :=
  pyLtChars_irrefl a.data

theorem pySorted2_symm (a b : String) : pySorted2 a b = pySorted2 b a := by
  unfold pySorted2
  by_cases hba : pyStrLt b a = true
  · have hab : pyStrLt a b = false := pyStrLt_asymm hba
    rw [if_pos hba, if_neg (by rw [hab]; exact Bool.false_ne_true)]
  · by_cases hab : pyStrLt a b = true
    · rw [if_neg hba, if_pos hab]
    · have hab' : pyStrLt a b = false := by simpa using hab
      have hba' : pyStrLt b a = false := by simpa using hba
      have heq : a = b := pyStrLt_conn hab' hba'
      subst heq
      rfl

theorem matchupKey_symm (a b : String) : matchupKey a b = matchupKey b a := by
  unfold matchupKey
  by_cases hab : a = b
  · subst hab; rfl
  · rw [if_neg hab, if_neg (fun h => hab h.symm), pySorted2_symm]

theorem matchupKey_canonical (a b : String) :
    matchupKey a b = (pySorted2 a b).1 ++ " vs " ++ (pySorted2 a b).2 := by
  unfold matchupKey
  by_cases hab : a = b
  · subst hab
    rw [if_pos rfl]
    unfold pySorted2
    rw [if_neg (by rw [pyStrLt_irrefl a]; exact Bool.false_ne_true)]
  · rw [if_neg hab]

/-- The match with the two participant slots exchanged. -/
def swapSlots (m : MatchData) : MatchData :=
  { m with
    player1_steamid := m.player2_steamid, player1_alias := m.player2_alias
    player1_race := m.player2_race, player1_old_elo := m.player2_old_elo
    player1_new_elo := m.player2_new_elo, player2_steamid := m.player1_steamid
    player2_alias := m.player1_alias, player2_race := m.player1_race
    player2_old_elo := m.player1_old_elo, player2_new_elo := m.player1_new_elo }

/-- One step of the global matchup tally is insensitive to which slot held
which race: the key is canonicalised and the win is attributed by comparing
the winning race with the race1 recorded in the entry. -/
theorem allMatchupsStep_swap (t : MatchupTable) (m : MatchData) :
    allMatchupsStep t (swapSlots m) = allMatchupsStep t m := by
  simp only [allMatchupsStep, swapSlots]
  rw [matchupKey_symm m.player2_race m.player1_race]
  by_cases h12 : m.player1_race = m.player2_race
  · rw [h12]
  · by_cases h1 : m.winner_race = m.player1_race
    · by_cases h2 : m.winner_race = m.player2_race
      · exact absurd (h1.symm.trans h2) h12
      · simp [h1, h2, h12]
    · have h21 : ¬ m.player2_race = m.player1_race := fun h => h12 h.symm
      by_cases h2 : m.winner_race = m.player2_race
      · simp [h1, h2, h21]
      · simp [h1, h2]

theorem foldl_swap_middle (init : MatchupTable) (l1 l2 : List MatchData)
    (m : MatchData) :
    ((l1 ++ m :: l2).foldl allMatchupsStep init)
      = ((l1 ++ swapSlots m :: l2).foldl allMatchupsStep init) := by
  rw [List.foldl_append, List.foldl_append, List.foldl_cons, List.foldl_cons,
    allMatchupsStep_swap]

theorem swapSlots_filter_pred (min_elo max_elo : Option Int) (m : MatchData) :
    (playerInRange min_elo max_elo (swapSlots m).player1_old_elo &&
      playerInRange min_elo max_elo (swapSlots m).player2_old_elo)
    = (playerInRange min_elo max_elo m.player1_old_elo &&
      playerInRange min_elo max_elo m.player2_old_elo) := by
  dsimp only [swapSlots]
  rw [Bool.and_comm]

/-- Swapping the two slots of any stored match leaves the whole global
matchup matrix unchanged. -/
theorem get_all_race_matchups_swap (min_elo max_elo : Option Int)
    (pre post : List MatchData) (m : MatchData) :
    get_all_race_matchups min_elo max_elo (pre ++ m :: post)
      = get_all_race_matchups min_elo max_elo (pre ++ swapSlots m :: post) := by
  have hfold : (filter_matches_by_elo_range min_elo max_elo (pre ++ m :: post)).foldl
        allMatchupsStep (allMatchupsInit (eloRangeStr min_elo max_elo))
      = (filter_matches_by_elo_range min_elo max_elo
          (pre ++ swapSlots m :: post)).foldl
        allMatchupsStep (allMatchupsInit (eloRangeStr min_elo max_elo)) := by
    have hfilter : ∀ (p : MatchData → Bool), p (swapSlots m) = p m →
        ((pre ++ m :: post).filter p).foldl allMatchupsStep
          (allMatchupsInit (eloRangeStr min_elo max_elo))
        = ((pre ++ swapSlots m :: post).filter p).foldl allMatchupsStep
          (allMatchupsInit (eloRangeStr min_elo max_elo)) := by
      intro p hp
      rw [List.filter_append, List.filter_append, List.filter_cons,
        List.filter_cons, hp]
      by_cases hm : p m = true
      · rw [if_pos hm, if_pos hm]
        exact foldl_swap_middle _ _ _ _
      · rw [if_neg hm, if_neg hm]
    match min_elo, max_elo with
    | none, none => exact foldl_swap_middle _ _ _ _
    | some a, none => exact hfilter _ (swapSlots_filter_pred (some a) none m)
    | none, some b => exact hfilter _ (swapSlots_filter_pred none (some b) m)
    | some a, some b => exact hfilter _ (swapSlots_filter_pred (some a) (some b) m)
  funext key
  simp only [get_all_race_matchups]
  rw [hfold]

theorem map_races_updateF2 (t : MatchupTable) (K : String)
    (f g : PairStats → PairStats)
    (hfg : ∀ v : PairStats, ((g (f v)).race1, (g (f v)).race2) = (v.race1, v.race2))
    (k : String) :
    ((updateF (updateF t K f) K g) k).map (fun e => (e.race1, e.race2))
      = (t k).map (fun e => (e.race1, e.race2)) := by
  rw [updateF2_lookup]
  by_cases hk : k = K
  · rw [if_pos hk, hk]
    cases hl : t K with
    | none => rfl
    | some v => simp [hfg v]
  · rw [if_neg hk]

theorem map_races_updateF (t : MatchupTable) (K : String) (f : PairStats → PairStats)
    (hf : ∀ v : PairStats, ((f v).race1, (f v).race2) = (v.race1, v.race2))
    (k : String) :
    ((updateF t K f) k).map (fun e => (e.race1, e.race2))
      = (t k).map (fun e => (e.race1, e.race2)) := by
  unfold updateF
  by_cases hk : k = K
  · rw [if_pos hk]
    cases hl : t k with
    | none => rfl
    | some v => simp [hf v]
  · rw [if_neg hk]

/-- The tally loop of the global matchup matrix never changes the two race
fields recorded in an entry. -/
theorem allMatchupsStep_races (t : MatchupTable) (m : MatchData) (k : String) :
    ((allMatchupsStep t m) k).map (fun e => (e.race1, e.race2))
      = (t k).map (fun e => (e.race1, e.race2)) := by
  have hpair : ∀ (race : String) (v : PairStats),
      ((pairBumpWinFor race (pairBumpTotal v)).race1,
        (pairBumpWinFor race (pairBumpTotal v)).race2) = (v.race1, v.race2) := by
    intro race v
    unfold pairBumpWinFor pairBumpTotal
    split <;> rfl
  have hT : ∀ v : PairStats,
      ((pairBumpTotal v).race1, (pairBumpTotal v).race2) = (v.race1, v.race2) :=
    fun _ => rfl
  simp only [allMatchupsStep]
  repeat' split
  all_goals
    first
    | rfl
    | exact map_races_updateF2 _ _ pairBumpTotal (pairBumpWinFor m.player1_race)
        (hpair m.player1_race) _
    | exact map_races_updateF2 _ _ pairBumpTotal (pairBumpWinFor m.player2_race)
        (hpair m.player2_race) _
    | exact map_races_updateF _ _ pairBumpTotal hT _

/-- In the initial global matchup table, the entry at the canonical key of
any two faction names records the lexicographically sorted pair as
race1 and race2. -/
theorem allMatchupsInit_races (es : String) :
    ∀ A ∈ factionNames, ∀ B ∈ factionNames,
      ((allMatchupsInit es) (matchupKey A B)).map (fun e => (e.race1, e.race2))
        = some ((pySorted2 A B).1, (pySorted2 A B).2) := by
  intro A hA B hB
  fin_cases hA <;> fin_cases hB <;> rfl

theorem get_all_race_matchups_races (min_elo max_elo : Option Int)
    (stored : List MatchData) (A B : String)
    (hA : A ∈ factionNames) (hB : B ∈ factionNames) :
    ∃ e, get_all_race_matchups min_elo max_elo stored (matchupKey A B) = some e ∧
      e.race1 = (pySorted2 A B).1 ∧ e.race2 = (pySorted2 A B).2 := by
  have hpres := foldl_preserve
    (fun t : MatchupTable => ∀ k, (t k).map (fun e => (e.race1, e.race2))
      = ((allMatchupsInit (eloRangeStr min_elo max_elo)) k).map
          (fun e => (e.race1, e.race2)))
    allMatchupsStep
    (filter_matches_by_elo_range min_elo max_elo stored)
    (allMatchupsInit (eloRangeStr min_elo max_elo))
    (fun _ => rfl)
    (fun t m _ hP k => (allMatchupsStep_races t m k).trans (hP k))
  have hinit := allMatchupsInit_races (eloRangeStr min_elo max_elo) A hA B hB
  have hkey := (hpres (matchupKey A B)).trans hinit
  simp only [get_all_race_matchups]
  cases hl : ((filter_matches_by_elo_range min_elo max_elo stored).foldl
      allMatchupsStep (allMatchupsInit (eloRangeStr min_elo max_elo)))
      (matchupKey A B) with
  | none => rw [hl] at hkey; simp at hkey
  | some e0 =>
      rw [hl] at hkey
      simp only [Option.map_some', Option.some_inj] at hkey
      have hfr : (allMatchupsFinish e0).race1 = e0.race1 := by
        unfold allMatchupsFinish
        split <;> rfl
      have hfr2 : (allMatchupsFinish e0).race2 = e0.race2 := by
        unfold allMatchupsFinish
        split <;> rfl
      refine ⟨allMatchupsFinish e0, rfl, ?_, ?_⟩
      · rw [hfr]
        exact (Prod.ext_iff.mp hkey).1
      · rw [hfr2]
        exact (Prod.ext_iff.mp hkey).2

/-- Claim C8: for every pair of races A and B and every store contents, the
global matchup matrix accumulates the matches of (A,B) and of (B,A) into
the same single entry: the dict key is symmetric in the two races and is
the lexicographically sorted pair joined by " vs "; swapping the two
participant slots of any stored match leaves the entire matrix unchanged;
and the entry found at the canonical key records the lexicographically
first race as race1 (the side race1_wins counts for) and the second as
race2, regardless of slot order. -/
theorem c8_global_matrix_symmetric (min_elo max_elo : Option Int)
    (stored pre post : List MatchData) (m : MatchData) (A B : String)
    (hA : A ∈ factionNames) (hB : B ∈ factionNames) :
    matchupKey A B = matchupKey B A ∧
    matchupKey A B = (pySorted2 A B).1 ++ " vs " ++ (pySorted2 A B).2 ∧
    get_all_race_matchups min_elo max_elo (pre ++ m :: post)
      = get_all_race_matchups min_elo max_elo (pre ++ swapSlots m :: post) ∧
    ∃ e, get_all_race_matchups min_elo max_elo stored (matchupKey A B) = some e ∧
      e.race1 = (pySorted2 A B).1 ∧ e.race2 = (pySorted2 A B).2 :=
  ⟨matchupKey_symm A B, matchupKey_canonical A B,
   get_all_race_matchups_swap min_elo max_elo pre post m,
   get_all_race_matchups_races min_elo max_elo stored A B hA hB⟩

/-- A stored match used by the C8 witness. -/
def c8Match : MatchData :=
  { match_id := "5", map_name := "Blood River", start_time := 0
    completion_time := 10, player1_steamid := "76561198000000003"
    player1_alias := "Gamma", player1_race := "Eldar", player1_old_elo := 1000
    player1_new_elo := 1010, player2_steamid := "76561198000000004"
    player2_alias := "Delta", player2_race := "Chaos", player2_old_elo := 1000
    player2_new_elo := 990, winner_steamid := "76561198000000003"
    winner_race := "Eldar" }

/-- Witness for C8 at the concrete pair (Eldar, Chaos) and a one-match
store. -/
theorem c8_global_matrix_symmetric_witness :
    ("Eldar" ∈ factionNames ∧ "Chaos" ∈ factionNames) ∧
    (matchupKey "Eldar" "Chaos" = matchupKey "Chaos" "Eldar" ∧
     matchupKey "Eldar" "Chaos"
       = (pySorted2 "Eldar" "Chaos").1 ++ " vs " ++ (pySorted2 "Eldar" "Chaos").2 ∧
     get_all_race_matchups none none ([] ++ c8Match :: [])
       = get_all_race_matchups none none ([] ++ swapSlots c8Match :: []) ∧
     ∃ e, get_all_race_matchups none none [c8Match] (matchupKey "Eldar" "Chaos")
         = some e ∧
       e.race1 = (pySorted2 "Eldar" "Chaos").1 ∧
       e.race2 = (pySorted2 "Eldar" "Chaos").2) :=
  ⟨⟨by decide, by decide⟩,
   c8_global_matrix_symmetric none none [c8Match] [] [] c8Match "Eldar" "Chaos"
     (by decide) (by decide)⟩

/-- One raw stored-match dict of the persisted match-data snapshot;
MatchData.from_dict reads every field with [], so any missing field raises
KeyError, modelled by the Option fields. -/
structure RawStoredMatch where
  match_id : Option String
  map_name : Option String
  start_time : Option Int
  completion_time : Option Int
  player1_steamid : Option String
  player1_alias : Option String
  player1_race : Option String
  player1_old_elo : Option Int
  player1_new_elo : Option Int
  player2_steamid : Option String
  player2_alias : Option String
  player2_race : Option String
  player2_old_elo : Option Int
  player2_new_elo : Option Int
  winner_steamid : Option String
  winner_race : Option String
deriving DecidableEq

/-- MatchData.from_dict: succeeds only when every field is present; a
missing field raises KeyError, modelled as none. -/
def matchDataFromDict (d : RawStoredMatch) : Option MatchData :=
  if d.match_id.isSome ∧ d.map_name.isSome ∧ d.start_time.isSome ∧
      d.completion_time.isSome ∧ d.player1_steamid.isSome ∧
      d.player1_alias.isSome ∧ d.player1_race.isSome ∧
      d.player1_old_elo.isSome ∧ d.player1_new_elo.isSome ∧
      d.player2_steamid.isSome ∧ d.player2_alias.isSome ∧
      d.player2_race.isSome ∧ d.player2_old_elo.isSome ∧
      d.player2_new_elo.isSome ∧ d.winner_steamid.isSome ∧
      d.winner_race.isSome then
    some ⟨d.match_id.getD "", d.map_name.getD "", d.start_time.getD 0,
      d.completion_time.getD 0, d.player1_steamid.getD "",
      d.player1_alias.getD "", d.player1_race.getD "",
      d.player1_old_elo.getD 0, d.player1_new_elo.getD 0,
      d.player2_steamid.getD "", d.player2_alias.getD "",
      d.player2_race.getD "", d.player2_old_elo.getD 0,
      d.player2_new_elo.getD 0, d.winner_steamid.getD "",
      d.winner_race.getD ""⟩
  else none

/-- What reading the persisted match-data file can yield: no file, a file
whose JSON fails to parse (open or json.load raises), or a parsed document
with the two consumed fields already defaulted as dict.get does. -/
inductive MatchFileRead where
  | missing
  | badJson
  | parsed (storedMatches : List (String × RawStoredMatch)) (processedIds : List String)
deriving DecidableEq

/-- The loading loop of load_match_data_from_file: convert and insert the
entries one at a time; the first entry whose conversion raises aborts the
loop, leaving whatever was inserted so far. Returns whether the loop
finished and the collection built. -/
def loadMatchesLoop : List (String × RawStoredMatch) → List (String × MatchData) →
    Bool × List (String × MatchData)
  | [], acc => (true, acc)
  | (mid, raw) :: rest, acc =>
      match matchDataFromDict raw with
      | none => (false, acc)
      | some md => loadMatchesLoop rest (insertA acc mid md)

/-- Bot.py load_match_data_from_file: a missing file is skipped; a document
that fails to parse is caught by the except clause with the state
unchanged; a parsed document first CLEARS stored_matches, then fills it
entry by entry, and only after the whole loop does it clear and refill
processed_match_ids (as a set built from the list). A conversion failure
mid-loop propagates to the except clause, which only prints: the partially
filled stored_matches stays and processed_match_ids is never touched. The
function never raises to its caller. -/
def load_match_data_from_file (file : MatchFileRead) (st : BotState) : BotState :=
  match file with
  | .missing => st
  | .badJson => st
  | .parsed entries ids =>
      let r := loadMatchesLoop entries []
      if r.1 then
        { st with stored_matches := r.2
                  processed_match_ids := ids.foldl setAdd [] }
      else
        { st with stored_matches := r.2 }

/-- A fully populated raw stored match. -/
def c6GoodRaw : RawStoredMatch :=
  { match_id := some "1", map_name := some "Battle Marshes"
    start_time := some 0, completion_time := some 10
    player1_steamid := some "76561198000000001", player1_alias := some "Alpha"
    player1_race := some "Chaos", player1_old_elo := some 1200
    player1_new_elo := some 1210
    player2_steamid := some "76561198000000002", player2_alias := some "Beta"
    player2_race := some "Eldar", player2_old_elo := some 1100
    player2_new_elo := some 1090
    winner_steamid := some "76561198000000001", winner_race := some "Chaos" }

/-- A malformed raw stored match: every field missing. -/
def c6BadRaw : RawStoredMatch :=
  { match_id := none, map_name := none, start_time := none
    completion_time := none, player1_steamid := none, player1_alias := none
    player1_race := none, player1_old_elo := none, player1_new_elo := none
    player2_steamid := none, player2_alias := none, player2_race := none
    player2_old_elo := none, player2_new_elo := none, winner_steamid := none
    winner_race := none }

/-- A snapshot whose second match record is malformed. -/
def c6File : MatchFileRead :=
  MatchFileRead.parsed [("1", c6GoodRaw), ("2", c6BadRaw)] ["1", "2"]

/-- Claim C6 is violated by the code: loading a snapshot whose second match
record is malformed leaves the store PARTIALLY populated: the first match
stays in the collection (neither the full snapshot nor an empty store) and
the processed-id set is left untouched instead of being cleared. -/
theorem c6_partial_load_at_failing_input :
    (load_match_data_from_file c6File initState).stored_matches.length = 1 ∧
    (load_match_data_from_file c6File initState).processed_match_ids = [] ∧
    matchDataFromDict c6BadRaw = none := by decide

/-- One member record of a leaderboard statGroups entry. -/
structure MemberEntry where
  name : Option String
  «alias» : Option String
deriving DecidableEq

/-- One statGroups record of a leaderboard page. -/
structure StatGroup where
  id : Option Int
  members : List MemberEntry
deriving DecidableEq

/-- One leaderboard page; an upstream failure ({} from fetch_json) is the
payload with both lists empty, which every consumer treats identically. -/
structure LBPayload where
  statGroups : List StatGroup
  leaderboardStats : List LBStat
deriving DecidableEq

/-- One match-history response; none models the {} that fetch_match_history
returns on failure (falsy in the `if not match_data` check). -/
structure HistPayload where
  profiles : List RawProfile
  matchHistoryStats : List RawMatch
deriving DecidableEq

/-- Stable insertion into a descending-sorted list (Python sorted with
reverse=True keeps the original order of equal keys). -/
def insDescBy {α : Type} (key : α → Int) (x : α) : List α → List α
  | [] => [x]
  | y :: ys => if key x ≥ key y then x :: y :: ys else y :: insDescBy key x ys

/-- Stable descending sort by an integer key. -/
def sortDescBy {α : Type} (key : α → Int) : List α → List α
  | [] => []
  | x :: xs => insDescBy key x (sortDescBy key xs)

/-- Bot.py filter_1v1_matches: keep matchtype 1 and sort by completion time
descending. The sort key is read with [] in Python; the claims never reach
a record without it, and the model defaults it to 0. -/
def filter_1v1_matches (ms : List RawMatch) : List RawMatch :=
  sortDescBy (fun m => m.completiontime.getD 0)
    (ms.filter (fun m => m.matchtype_id == some 1))

/-- Bot.py batch_store_aliases_from_profiles: harvest steam-named profiles
through store_player_alias, and save the alias snapshot only when something
changed and save_after is set. -/
def batch_store_aliases_from_profiles (profiles : List RawProfile)
    (save_after : Bool) (st : BotState) : Nat × BotState :=
  let r := profiles.foldl (fun (acc : Nat × BotState) p =>
    let profile_name := p.name.getD ""
    if pyStartsWith profile_name "/steam/" then
      let steam_id := pyReplaceWithEmpty profile_name "/steam/"
      let r2 := store_player_alias acc.2 steam_id (p.«alias».getD "Unknown Player") false
      (if r2.1 then acc.1 + 1 else acc.1, r2.2)
    else acc) (0, st)
  if r.1 > 0 && save_after then
    (r.1, { r.2 with saves := r.2.saves ++ [SaveEvent.aliasSave] })
  else r

/-- Bot.py extract_elos with the fetch replaced by its response: find the
player profile, store its alias, run every returned 1v1 match through
store_match_from_history in batch mode, then batch-store the payload
aliases; outside batch mode a successful store also saves the match
snapshot. -/
def extract_elos (payload : Option HistPayload) (steam_id : String)
    (batch_mode : Bool) (st : BotState) : BotState :=
  match payload with
  | none => st
  | some pd =>
      match pd.profiles.find? (fun p => p.name == some ("/steam/" ++ steam_id)) with
      | none => st
      | some prof =>
          if prof.profile_id = 0 then st
          else
            let st1 := (store_player_alias st steam_id
              (prof.«alias».getD "Unknown Player") false).2
            let ms := filter_1v1_matches pd.matchHistoryStats
            if ms.isEmpty then st1
            else
              let r := ms.foldl
                (fun (acc : Nat × BotState) mtch =>
                  let r2 := store_match_from_history mtch pd.profiles true acc.2
                  (if r2.1 then acc.1 + 1 else acc.1, r2.2)) (0, st1)
              let r3 := batch_store_aliases_from_profiles pd.profiles (!batch_mode) r.2
              if !batch_mode && r.1 > 0 then
                { r3.2 with saves := r3.2.saves ++ [SaveEvent.matchSave] }
              else r3.2

/-- The summary record returned by bulk_scan_for_matches. -/
structure ScanResults where
  total_players_processed : Nat
  new_players_found : Nat
  total_matches_added : Int
  errors : Nat
  leaderboard_results : List (String × Nat)
deriving DecidableEq

/-- The per-statGroup body of the effective bulk_scan_for_matches (second
definition, Bot.py line 1603): extract and validate the steam id, assign
the alias DIRECTLY into the dict (no validation, no save), then run
extract_elos in batch mode and count the added matches. The accumulator
carries the results, the state and the per-leaderboard player counter. -/
def scanStatGroup (histOracle : String → Option HistPayload)
    (acc : ScanResults × BotState × Nat) (sg : StatGroup) :
    ScanResults × BotState × Nat :=
  let results := acc.1
  let st := acc.2.1
  let lbp := acc.2.2
  match sg.members with
  | [] => acc
  | member :: _ =>
      let member_name := member.name.getD ""
      if !pyStartsWith member_name "/steam/" then acc
      else
        let steam_id := pyReplaceWithEmpty member_name "/steam/"
        if !validate_steamid steam_id then acc
        else
          let is_new := (lookupA st.player_aliases steam_id).isNone
          let results1 := if is_new then
              { results with new_players_found := results.new_players_found + 1 }
            else results
          let pa := insertA st.player_aliases steam_id (member.«alias».getD "Unknown Player")
          let st1 := { st with player_aliases := pa }
          let pre := st1.stored_matches.length
          let st2 := extract_elos (histOracle steam_id) steam_id true st1
          let post := st2.stored_matches.length
          let results2 := { results1 with
            total_matches_added := results1.total_matches_added + ((post : Int) - (pre : Int))
            total_players_processed := results1.total_players_processed + 1 }
          (results2, st2, lbp + 1)

/-- The pagination loop of one leaderboard: start at 1 with page size 200,
stop on an empty page, a short page, or once start exceeds 1000. The fuel
only needs to cover the at most 5 reachable pages; the callers pass 6. -/
def scanPages (lbOracle : Int → Nat → LBPayload)
    (histOracle : String → Option HistPayload) (lb_id : Int) :
    Nat → Nat → ScanResults × BotState × Nat → ScanResults × BotState × Nat
  | 0, _, acc => acc
  | fuel + 1, start, acc =>
      let sgs := (lbOracle lb_id start).statGroups
      if sgs.isEmpty then acc
      else
        let acc1 := sgs.foldl (scanStatGroup histOracle) acc
        if sgs.length < 200 then acc1
        else
          let start1 := start + 200
          if start1 > 1000 then acc1
          else scanPages lbOracle histOracle lb_id fuel start1 acc1

/-- The EFFECTIVE Bot.py bulk_scan_for_matches: the function is defined
twice in the module and the second definition (line 1603) shadows the
first, so this is the one that runs. On the non-error path it ends with a
single save_match_data_to_file() call (line 1709) and NEVER saves the alias
directory, although the scan mutates it; the shadowed first definition
(lines 1487-1602) ended with both save_match_data_to_file() and
save_aliases_to_file(). Network fetches are the two oracle parameters and
the per-item try/except clauses never fire on the total payload model. -/
def bulk_scan_for_matches (lbOracle : Int → Nat → LBPayload)
    (histOracle : String → Option HistPayload) (st : BotState) :
    ScanResults × BotState :=
  let results0 : ScanResults := ⟨0, 0, 0, 0, []⟩
  let r := ([1, 2, 3, 4, 5, 6, 7, 8, 9] : List Int).foldl
    (fun (acc : ScanResults × BotState) lb_id =>
      let faction_name := (lookupA factions lb_id).getD ("Faction " ++ toString lb_id)
      let lr1 := insertA acc.1.leaderboard_results faction_name 0
      let results1 := { acc.1 with leaderboard_results := lr1 }
      let r2 := scanPages lbOracle histOracle lb_id 6 1 (results1, acc.2, 0)
      let lr3 := insertA r2.1.leaderboard_results faction_name r2.2.2
      let results3 := { r2.1 with leaderboard_results := lr3 }
      (results3, r2.2.1)) (results0, st)
  (r.1, { r.2 with saves := r.2.saves ++ [SaveEvent.matchSave] })

/-- A leaderboard oracle: one steam player on the first leaderboard, the
other leaderboards empty (an upstream {} response). -/
def c5Oracle : Int → Nat → LBPayload := fun lb_id _ =>
  if lb_id = 1 then
    { statGroups := [
        { id := some 1,
          members := [ { name := some "/steam/76561198000000001",
                         «alias» := some "PlayerOne" } ] } ]
      leaderboardStats := [] }
  else { statGroups := [], leaderboardStats := [] }

/-- The single 1v1 match of the scanned player. -/
def c5HistMatch : RawMatch :=
  { id := 42, matchtype_id := some 1, mapname := some "Battle Marshes"
    startgametime := some 100, completiontime := some 200
    matchhistorymember :=
      [ { profile_id := 11, race_id := 0, oldrating := 1200, newrating := 1210 },
        { profile_id := 12, race_id := 3, oldrating := 1100, newrating := 1090 } ]
    matchhistoryreportresults := [ ⟨11, 1⟩, ⟨12, 0⟩ ] }

/-- The profile list of the match-history payload. -/
def c5Profiles : List RawProfile :=
  [ { profile_id := 11, name := some "/steam/76561198000000001",
      «alias» := some "PlayerOne" },
    { profile_id := 12, name := some "/steam/76561198000000002",
      «alias» := some "PlayerTwo" } ]

/-- The match-history oracle for the scanned player. -/
def c5Hist : String → Option HistPayload := fun sid =>
  if sid = "76561198000000001" then some ⟨c5Profiles, [c5HistMatch]⟩ else none

/-- Claim C5 is violated by the code: a completed scan of the effective
bulk_scan_for_matches performs exactly ONE snapshot save, of the match
data only, although the alias directory was mutated during the scan (two
aliases collected); the alias snapshot is never saved, contradicting the
claim that both stores are saved once at the end. -/
theorem c5_effective_scan_saves_only_match_data :
    ((bulk_scan_for_matches c5Oracle c5Hist initState).2).saves
        = [SaveEvent.matchSave] ∧
    ((bulk_scan_for_matches c5Oracle c5Hist initState).2).player_aliases.length = 2 ∧
    ((bulk_scan_for_matches c5Oracle c5Hist initState).2).stored_matches.length = 1 := by
  set_option maxRecDepth 4000 in decide

/-- One merged player row of the topelo view; the two leader fields are
attached by the final loop. -/
structure TopPlayer where
  steam_id : String
  «alias» : String
  rating : Int
  faction : String
  faction_id : Int
  wins : Int
  losses : Int
  total_games : Int
  winrate : ℚ
  rank : Option Int
  leader_symbols : String
  is_faction_leader : Bool
deriving DecidableEq

/-- The FACTION_SYMBOLS dict of topelo. -/
def factionSymbols : List (Int × String) :=
  [(1, "😈"), (2, "🗡️"), (3, "✨"), (4, "🛡️"), (5, "🤖"),
   (6, "💪"), (7, "🔥"), (8, "⭐"), (9, "🎯")]

/-- One value of the rank_lookup dict of topelo. -/
structure RankInfo where
  rank : Option Int
  rating : Int
  wins : Int
  losses : Int
  drops : Int
  streak : Int
deriving DecidableEq

/-- The rank_lookup dict of topelo: stats of this leaderboard with a truthy
statgroup_id (neither missing nor 0). -/
def buildRankLookup (lb_id : Int) (stats : List LBStat) : List (Int × RankInfo) :=
  stats.foldl (fun acc stat =>
    if stat.leaderboard_id == some lb_id then
      match stat.statgroup_id with
      | some g =>
          if g ≠ 0 then
            insertA acc g
              ⟨stat.rank, stat.rating.getD 0, stat.wins.getD 0,
                stat.losses.getD 0, stat.drops.getD 0, stat.streak.getD 0⟩
          else acc
      | none => acc
    else acc) []

/-- The player_lookup dict of topelo: first member of each truthy-id group
with a valid steam name. -/
def buildPlayerLookup (groups : List StatGroup) : List (Int × (String × String)) :=
  groups.foldl (fun acc sg =>
    match sg.id with
    | none => acc
    | some g =>
        if g ≠ 0 then
          match sg.members with
          | [] => acc
          | member :: _ =>
              let member_name := member.name.getD ""
              if pyStartsWith member_name "/steam/" then
                let sid := pyReplaceWithEmpty member_name "/steam/"
                if validate_steamid sid then
                  insertA acc g (sid, member.«alias».getD "Unknown Player")
                else acc
              else acc
        else acc) []

/-- The per-leaderboard body of topelo: join rank records to player records
by statgroup id, skip entries with a missing, non-positive or above-100
rank and entries with fewer than min_games effective games, track rank-1
players as faction leaders, and keep for each player only the
highest-rating faction entry. -/
def topeloLeaderboard (min_games : Int) (lb_id : Int) (pg : LBPayload)
    (acc : List (String × TopPlayer) × List (String × List Int)) :
    List (String × TopPlayer) × List (String × List Int) :=
  if pg.leaderboardStats.isEmpty then acc
  else if pg.statGroups.isEmpty then acc
  else
    let faction_name := (lookupA factions lb_id).getD ("Faction " ++ toString lb_id)
    let rank_lookup := buildRankLookup lb_id pg.leaderboardStats
    let player_lookup := buildPlayerLookup pg.statGroups
    rank_lookup.foldl (fun (acc2 : List (String × TopPlayer) × List (String × List Int))
        (entry : Int × RankInfo) =>
      match lookupA player_lookup entry.1 with
      | none => acc2
      | some pinfo =>
          let ri := entry.2
          let actual_losses := max (ri.losses - ri.drops) 0
          let total_games := ri.wins + actual_losses
          match ri.rank with
          | none => acc2
          | some r =>
              if r ≤ 0 ∨ r > 100 then acc2
              else if total_games < min_games then acc2
              else
                let winrate : ℚ :=
                  if total_games > 0 then ((ri.wins : ℚ) / (total_games : ℚ)) * 100
                  else 0
                let fl1 := if r = 1 then
                    (match lookupA acc2.2 pinfo.1 with
                     | none => insertA acc2.2 pinfo.1 [lb_id]
                     | some lst => insertA acc2.2 pinfo.1 (lst ++ [lb_id]))
                  else acc2.2
                let pd : TopPlayer :=
                  { steam_id := pinfo.1, «alias» := pinfo.2, rating := ri.rating
                    faction := faction_name, faction_id := lb_id, wins := ri.wins
                    losses := actual_losses, total_games := total_games
                    winrate := winrate
                    rank := if r > 0 then some r else none
                    leader_symbols := "", is_faction_leader := false }
                let ap1 := match lookupA acc2.1 pinfo.1 with
                  | none => insertA acc2.1 pinfo.1 pd
                  | some old =>
                      if ri.rating > old.rating then insertA acc2.1 pinfo.1 pd
                      else acc2.1
                (ap1, fl1)) acc

/-- The final per-player leader annotation loop of topelo. -/
def topeloFinalizeLeaders (fl : List (String × List Int)) (p : TopPlayer) :
    TopPlayer :=
  match lookupA fl p.steam_id with
  | some led =>
      { p with
        leader_symbols := String.join (led.map (fun fid =>
          (lookupA factionSymbols fid).getD "👑"))
        is_faction_leader := true }
  | none => { p with leader_symbols := "", is_faction_leader := false }

/-- Bot.py topelo with the per-leaderboard fetches replaced by an oracle:
merge all nine faction leaderboards, keep each player once at their highest
rating, annotate faction leaders, sort by rating descending and truncate. -/
def topelo (oracle : Int → Nat → LBPayload) (limit : Nat) (min_games : Int) :
    List TopPlayer :=
  let r := ([1, 2, 3, 4, 5, 6, 7, 8, 9] : List Int).foldl
    (fun acc lb_id => topeloLeaderboard min_games lb_id (oracle lb_id 1) acc)
    ([], [])
  let top_players := r.1.map (fun kv => kv.2)
  let top_players := top_players.map (topeloFinalizeLeaders r.2)
  (sortDescBy (fun p => p.rating) top_players).take limit

theorem mem_insertA {K V : Type} [DecidableEq K] :
    ∀ (l : List (K × V)) (k : K) (v : V) (kv : K × V),
      kv ∈ insertA l k v → kv = (k, v) ∨ kv ∈ l := by
  intro l
  induction l with
  | nil =>
    intro k v kv h
    simp only [insertA] at h
    rcases List.mem_cons.mp h with h | h
    · exact Or.inl h
    · simp at h
  | cons kv0 rest ih =>
    intro k v kv h
    obtain ⟨k0, v0⟩ := kv0
    simp only [insertA] at h
    by_cases h0 : k0 = k
    · rw [if_pos h0] at h
      rcases List.mem_cons.mp h with h | h
      · exact Or.inl h
      · exact Or.inr (List.mem_cons_of_mem _ h)
    · rw [if_neg h0] at h
      rcases List.mem_cons.mp h with h | h
      · exact Or.inr (h ▸ List.mem_cons_self _ _)
      · rcases ih k v kv h with h | h
        · exact Or.inl h
        · exact Or.inr (List.mem_cons_of_mem _ h)

theorem mem_insDescBy {α : Type} (key : α → Int) :
    ∀ (l : List α) (x p : α), p ∈ insDescBy key x l → p = x ∨ p ∈ l := by
  intro l
  induction l with
  | nil =>
    intro x p h
    simp only [insDescBy] at h
    rcases List.mem_cons.mp h with h | h
    · exact Or.inl h
    · simp at h
  | cons y ys ih =>
    intro x p h
    simp only [insDescBy] at h
    by_cases hc : key x ≥ key y
    · rw [if_pos hc] at h
      rcases List.mem_cons.mp h with h | h
      · exact Or.inl h
      · exact Or.inr h
    · rw [if_neg hc] at h
      rcases List.mem_cons.mp h with h | h
      · exact Or.inr (h ▸ List.mem_cons_self _ _)
      · rcases ih x p h with h | h
        · exact Or.inl h
        · exact Or.inr (List.mem_cons_of_mem _ h)

theorem mem_sortDescBy {α : Type} (key : α → Int) :
    ∀ (l : List α) (p : α), p ∈ sortDescBy key l → p ∈ l := by
  intro l
  induction l with
  | nil => intro p h; simp [sortDescBy] at h
  | cons x xs ih =>
    intro p h
    simp only [sortDescBy] at h
    rcases mem_insDescBy key _ x p h with h | h
    · exact h ▸ List.mem_cons_self _ _
    · exact List.mem_cons_of_mem _ (ih p h)

/-- The property every all_players value of topelo maintains: a rank in
1..100 and at least min_games effective games, with total_games the sum of
wins and effective losses. -/
def topQ (min_games : Int) (p : TopPlayer) : Prop :=
  (∃ r, p.rank = some r ∧ 1 ≤ r ∧ r ≤ 100) ∧
  min_games ≤ p.total_games ∧ p.total_games = p.wins + p.losses

theorem topeloLeaderboard_preserves (min_games : Int) (lb_id : Int)
    (pg : LBPayload) (acc : List (String × TopPlayer) × List (String × List Int))
    (hP : ∀ kv ∈ acc.1, topQ min_games kv.2) :
    ∀ kv ∈ (topeloLeaderboard min_games lb_id pg acc).1, topQ min_games kv.2 := by
  unfold topeloLeaderboard
  split
  · exact hP
  · split
    · exact hP
    · refine foldl_preserve
        (fun acc2 : List (String × TopPlayer) × List (String × List Int) =>
          ∀ kv ∈ acc2.1, topQ min_games kv.2) _ _ _ hP ?_
      intro b entry _ hPb
      cases hlk : lookupA (buildPlayerLookup pg.statGroups) entry.1 with
      | none => exact hPb
      | some pinfo =>
          dsimp only
          cases hrk : entry.2.rank with
          | none => exact hPb
          | some r =>
              dsimp only
              by_cases hr : r ≤ 0 ∨ r > 100
              · rw [if_pos hr]
                exact hPb
              · rw [if_neg hr]
                by_cases hg : entry.2.wins + max (entry.2.losses - entry.2.drops) 0
                    < min_games
                · rw [if_pos hg]
                  exact hPb
                · rw [if_neg hg]
                  intro kv hkv
                  rw [not_or] at hr
                  have hr1 : 0 < r := by omega
                  have hr2 : r ≤ 100 := by omega
                  have hQpd : topQ min_games
                      { steam_id := pinfo.1, «alias» := pinfo.2
                        rating := entry.2.rating
                        faction := (lookupA factions lb_id).getD
                          ("Faction " ++ toString lb_id)
                        faction_id := lb_id, wins := entry.2.wins
                        losses := max (entry.2.losses - entry.2.drops) 0
                        total_games := entry.2.wins
                          + max (entry.2.losses - entry.2.drops) 0
                        winrate := if entry.2.wins
                            + max (entry.2.losses - entry.2.drops) 0 > 0 then
                            ((entry.2.wins : ℚ)
                              / ((entry.2.wins
                                + max (entry.2.losses - entry.2.drops) 0 : Int) : ℚ))
                              * 100
                          else 0
                        rank := if r > 0 then some r else none
                        leader_symbols := "", is_faction_leader := false } := by
                    refine ⟨⟨r, ?_, hr1, hr2⟩, ?_, rfl⟩
                    · dsimp only
                      rw [if_pos hr1]
                    · dsimp only
                      omega
                  revert hkv
                  cases hap : lookupA b.1 pinfo.1 with
                  | none =>
                      dsimp only
                      intro hkv
                      rcases mem_insertA _ _ _ kv hkv with h | h
                      · rw [h]
                        exact hQpd
                      · exact hPb kv h
                  | some old =>
                      dsimp only
                      by_cases hrat : entry.2.rating > old.rating
                      · rw [if_pos hrat]
                        intro hkv
                        rcases mem_insertA _ _ _ kv hkv with h | h
                        · rw [h]
                          exact hQpd
                        · exact hPb kv h
                      · rw [if_neg hrat]
                        intro hkv
                        exact hPb kv hkv

theorem topeloFinalizeLeaders_preserves (min_games : Int)
    (fl : List (String × List Int)) (q : TopPlayer) (h : topQ min_games q) :
    topQ min_games (topeloFinalizeLeaders fl q) := by
  unfold topeloFinalizeLeaders
  split <;> exact h

/-- Claim C10: every entry returned by topelo has a recorded rank between 1
and 100 inclusive (entries with a missing rank, rank at most 0 or rank
above 100 are excluded) and at least min_games effective games: its
total_games field equals wins plus the effective losses
max(losses - drops, 0) stored in its losses field, and is at least
min_games. -/
theorem c10_topelo_rank_and_min_games (oracle : Int → Nat → LBPayload)
    (limit : Nat) (min_games : Int) (p : TopPlayer)
    (hp : p ∈ topelo oracle limit min_games) :
    (∃ r, p.rank = some r ∧ 1 ≤ r ∧ r ≤ 100) ∧
    min_games ≤ p.total_games ∧ p.total_games = p.wins + p.losses := by
  have hfold := foldl_preserve
    (fun acc : List (String × TopPlayer) × List (String × List Int) =>
      ∀ kv ∈ acc.1, topQ min_games kv.2)
    (fun acc lb_id => topeloLeaderboard min_games lb_id (oracle lb_id 1) acc)
    ([1, 2, 3, 4, 5, 6, 7, 8, 9] : List Int) ([], [])
    (by intro kv hkv; simp at hkv)
    (fun acc lb_id _ hP =>
      topeloLeaderboard_preserves min_games lb_id (oracle lb_id 1) acc hP)
  simp only [topelo] at hp
  have hp1 := List.take_subset _ _ hp
  have hp2 := mem_sortDescBy _ _ _ hp1
  obtain ⟨q, hq, rfl⟩ := List.mem_map.mp hp2
  obtain ⟨kv, hkv, rfl⟩ := List.mem_map.mp hq
  exact topeloFinalizeLeaders_preserves min_games _ _ (hfold kv hkv)

/-- The single-player leaderboard page of the C10 witness. -/
def c10Payload : LBPayload :=
  { statGroups := [
      { id := some 3,
        members := [ { name := some "/steam/76561198000000001",
                       «alias» := some "Alpha" } ] } ]
    leaderboardStats := [
      { leaderboard_id := some 1, statgroup_id := some 3, rank := some 5
        rating := some 1500, wins := some 0, losses := some 0, drops := some 0
        streak := some 0 } ] }

/-- The C10 oracle: the page above on leaderboard 1, empty elsewhere. -/
def c10Oracle : Int → Nat → LBPayload := fun lb _ =>
  if lb = 1 then c10Payload else { statGroups := [], leaderboardStats := [] }

/-- The entry topelo builds from the C10 oracle. -/
def c10Player : TopPlayer :=
  { steam_id := "76561198000000001", «alias» := "Alpha", rating := 1500
    faction := "Chaos", faction_id := 1, wins := 0, losses := 0
    total_games := 0, winrate := 0, rank := some 5, leader_symbols := ""
    is_faction_leader := false }

/-- Witness for C10 at a concrete oracle and min_games 0. -/
theorem c10_topelo_rank_and_min_games_witness :
    c10Player ∈ topelo c10Oracle 50 0 ∧
    ((∃ r, c10Player.rank = some r ∧ 1 ≤ r ∧ r ≤ 100) ∧
      (0 : Int) ≤ c10Player.total_games ∧
      c10Player.total_games = c10Player.wins + c10Player.losses) :=
  ⟨by decide, c10_topelo_rank_and_min_games c10Oracle 50 0 c10Player (by decide)⟩

end DowBot
